import Mathlib

set_option maxRecDepth 8000

/-!
Verification of the PAA texture codec (Go package paa, with its texconfig
subpackage) against its natural-language specification.

The development shallowly embeds the byte-level container codec, the mip
block codec, the uncompressed pixel-format codec, the swizzle engine and
the encoding-policy helpers.  Byte streams are lists of naturals (every
byte written by the embedded code is reduced modulo 256, mirroring the Go
uint8 conversions); machine-integer truncation is made explicit with
modulo arithmetic (uint32 arithmetic is modulo 2^32).  The external
collaborators that are out of scope for the specification (the BCn block
codec, the LZO and LZSS decompressors) and the one floating-point routine
of the package (the nohq inverse normal-map swizzle, which renormalizes
with float64 arithmetic) are passed as parameters in a Codecs bundle, so
every theorem below holds for all of their behaviours.
-/

deriving instance DecidableEq for Except

namespace Paa

/-- Error kinds surfaced by the package (errors.go); ReadFailed stands for
the io errors returned by ReadFull and binary.Read on short input, and
RuntimePanic for an out-of-bounds slice write. -/
inductive Err where
  | NoMipmaps
  | InvalidMagic
  | MissingSFFO
  | InsufficientData
  | UnsupportedPixelFmt
  | UnsupportedFormat
  | LZODecompress
  | LZSSDecompress
  | DXTDecode
  | InvalidDimensions
  | ReadFailed
  | RuntimePanic
  | SwizzleExprUnsupported
  deriving DecidableEq, Repr

/-- PaxType: the nine recognized on-disk pixel formats (pax_type.go). -/
inductive PaxType where
  | DXT1
  | DXT2
  | DXT3
  | DXT4
  | DXT5
  | ARGB4
  | ARGBA5
  | ARGB8
  | GRAYA
  deriving DecidableEq, Repr

/-- isDXT from pax_type.go. -/
def isDXT (t : PaxType) : Bool :=
  t = PaxType.DXT1 ∨ t = PaxType.DXT2 ∨ t = PaxType.DXT3 ∨ t = PaxType.DXT4 ∨ t = PaxType.DXT5

/-- PaxTypeFromBytes from pax_type.go: parse the 2-byte little-endian magic. -/
def PaxTypeFromBytes (b0 b1 : Nat) : Option PaxType :=
  match b0 ||| (b1 <<< 8) with
  | 0xFF01 => some PaxType.DXT1
  | 0xFF02 => some PaxType.DXT2
  | 0xFF03 => some PaxType.DXT3
  | 0xFF04 => some PaxType.DXT4
  | 0xFF05 => some PaxType.DXT5
  | 0x4444 => some PaxType.ARGB4
  | 0x1555 => some PaxType.ARGBA5
  | 0x8888 => some PaxType.ARGB8
  | 0x8080 => some PaxType.GRAYA
  | _ => none

/-- PaxType.Bytes from pax_type.go: the 2-byte magic emitted by the writer. -/
def ptBytes (t : PaxType) : List Nat :=
  match t with
  | PaxType.DXT1 => [1, 255]
  | PaxType.DXT2 => [2, 255]
  | PaxType.DXT3 => [3, 255]
  | PaxType.DXT4 => [4, 255]
  | PaxType.DXT5 => [5, 255]
  | PaxType.ARGB4 => [68, 68]
  | PaxType.ARGBA5 => [85, 21]
  | PaxType.ARGB8 => [136, 136]
  | PaxType.GRAYA => [128, 128]

/-- Little-endian 16-bit decode, as binary.LittleEndian.Uint16. -/
def u16ofLE (b0 b1 : Nat) : Nat := b0 ||| (b1 <<< 8)

/-- Little-endian 32-bit decode, as binary.LittleEndian.Uint32. -/
def u32ofLE (b0 b1 b2 b3 : Nat) : Nat := b0 ||| (b1 <<< 8) ||| (b2 <<< 16) ||| (b3 <<< 24)

/-- Little-endian 16-bit encode, as binary.Write of a uint16. -/
def u16Bytes (v : Nat) : List Nat := [v % 256, (v >>> 8) % 256]

/-- Little-endian 32-bit encode, as binary.Write of a uint32 and
binary.LittleEndian.PutUint32. -/
def u32Bytes (v : Nat) : List Nat :=
  [v % 256, (v >>> 8) % 256, (v >>> 16) % 256, (v >>> 24) % 256]

/-- The four ASCII bytes of the GGAT tag introducer. -/
def ggatSig : List Nat := [71, 71, 65, 84]

/-- ASCII bytes of the tag name SFFO. -/
def sffoName : List Nat := [83, 70, 70, 79]

/-- ASCII bytes of the tag name ZIWS. -/
def ziwsName : List Nat := [90, 73, 87, 83]

/-- ASCII bytes of the tag name CGVA. -/
def cgvaName : List Nat := [67, 71, 86, 65]

/-- ASCII bytes of the tag name CXAM. -/
def cxamName : List Nat := [67, 88, 65, 77]

/-- ASCII bytes of the tag name GALF. -/
def galfName : List Nat := [71, 65, 76, 70]

/-- Tag store: the Go map from 4-byte tag name to payload, modelled as an
association list whose insert overwrites the existing binding. -/
def mapSet (m : List (List Nat × List Nat)) (k v : List Nat) : List (List Nat × List Nat) :=
  match m with
  | [] => [(k, v)]
  | (k0, v0) :: rest => if k0 = k then (k, v) :: rest else (k0, v0) :: mapSet rest k v

/-- Map lookup for the tag store. -/
def mapGet (m : List (List Nat × List Nat)) (k : List Nat) : Option (List Nat) :=
  match m with
  | [] => none
  | (k0, v0) :: rest => if k0 = k then some v0 else mapGet rest k

/-- ReadFull against the remaining stream: succeeds iff enough bytes remain. -/
def readExact (n : Nat) (s : List Nat) : Option (List Nat × List Nat) :=
  if n ≤ s.length then some (s.take n, s.drop n) else none

/-- readGGATTags from read_shared.go: loop reading GGAT-prefixed tags into the
tag map until a non-GGAT 4-byte group is seen; short reads fail. -/
def readGGATTagsGo (acc : List (List Nat × List Nat)) (s : List Nat) :
    Except Err (List (List Nat × List Nat) × List Nat) :=
  if h4 : s.length < 4 then Except.error Err.ReadFailed
  else if hsig : s.take 4 ≠ ggatSig then Except.ok (acc, s.drop 4)
  else if h12 : s.length < 12 then Except.error Err.ReadFailed
  else
    let name := (s.drop 4).take 4
    let size :=
      u32ofLE ((s.drop 8).getD 0 0) ((s.drop 8).getD 1 0) ((s.drop 8).getD 2 0)
        ((s.drop 8).getD 3 0)
    if hsz : s.length < 12 + size then Except.error Err.ReadFailed
    else readGGATTagsGo (mapSet acc name ((s.drop 12).take size)) (s.drop (12 + size))
termination_by s.length
decreasing_by simp only [List.length_drop]; omega

/-- Entry point of the tag reader (empty accumulator, as in the source). -/
def readGGATTags (s : List Nat) : Except Err (List (List Nat × List Nat) × List Nat) :=
  readGGATTagsGo [] s

/-- The 32-bit little-endian value at byte position i of a payload, as read
by binary.LittleEndian.Uint32 on a 4-byte subslice. -/
def u32At (sffo : List Nat) (i : Nat) : Nat :=
  u32ofLE (sffo.getD i 0) (sffo.getD (i + 1) 0) (sffo.getD (i + 2) 0) (sffo.getD (i + 3) 0)

/-- The scan loop of sffoOffsets: step through the payload four bytes at a
time while a full 4-byte group remains, collecting non-zero 32-bit
entries (the final group of fewer than four bytes is ignored). -/
def sffoCollectList : List Nat → List Nat
  | b0 :: b1 :: b2 :: b3 :: rest =>
    let v := u32ofLE b0 b1 b2 b3
    if v = 0 then sffoCollectList rest else v :: sffoCollectList rest
  | _ => []

/-- sffoOffsets from read_shared.go: non-zero offsets of the SFFO tag;
a missing tag or an all-zero table yields MissingSFFO. -/
def sffoOffsets (tags : List (List Nat × List Nat)) : Except Err (List Nat) :=
  match mapGet tags sffoName with
  | none => Except.error Err.MissingSFFO
  | some sffo =>
    let out := sffoCollectList sffo
    if out = [] then Except.error Err.MissingSFFO else Except.ok out

/-- readPaxType from read_shared.go: read and validate the 2-byte magic. -/
def readPaxTypeE (s : List Nat) : Except Err PaxType :=
  if s.length < 2 then Except.error Err.ReadFailed
  else
    match PaxTypeFromBytes (s.getD 0 0) (s.getD 1 0) with
    | none => Except.error Err.InvalidMagic
    | some t => Except.ok t

/-- One straight 8-bit RGBA pixel. -/
structure Pixel where
  r : Nat
  g : Nat
  b : Nat
  a : Nat
  deriving DecidableEq, Repr

/-- A rectangular RGBA buffer (width, height, row-major pixels). -/
structure Image where
  w : Nat
  h : Nat
  pix : List Pixel
  deriving DecidableEq, Repr

/-- MipMap from mip_map.go: one decoded mip level. -/
structure MipMap where
  Data : List Nat
  Typ : PaxType
  Width : Nat
  Height : Nat
  deriving DecidableEq, Repr

/-- expectedMipSize from mip_map.go: the raw byte size for one level, with
the sign convention of the source (negative would mean an unsupported
format; with the nine-constructor PaxType every case is covered). -/
def expectedMipSize (paxType : PaxType) (width height : Nat) : Int :=
  if width = 0 ∨ height = 0 then 0
  else
    match paxType with
    | PaxType.DXT1 => ((width + 3) / 4) * ((height + 3) / 4) * 8
    | PaxType.DXT2 => ((width + 3) / 4) * ((height + 3) / 4) * 16
    | PaxType.DXT3 => ((width + 3) / 4) * ((height + 3) / 4) * 16
    | PaxType.DXT4 => ((width + 3) / 4) * ((height + 3) / 4) * 16
    | PaxType.DXT5 => ((width + 3) / 4) * ((height + 3) / 4) * 16
    | PaxType.ARGB8 => width * height * 4
    | PaxType.ARGBA5 => width * height * 2
    | PaxType.ARGB4 => width * height * 2
    | PaxType.GRAYA => width * height * 2

/-- External collaborators, quantified over: the LZO and LZSS decompressors,
the BCn block decoder, and the float64-based nohq inverse swizzle
(unswizzleNormalMap renormalizes with float64 math.Sqrt, so its pixel
function is a parameter of the integer embedding). -/
structure Codecs where
  lzoDecompress : List Nat → Nat → Except Unit (List Nat)
  lzssDecompress : List Nat → Nat → Except Unit (List Nat)
  bcnDecode : List Nat → Nat → Nat → PaxType → Except Unit (List Pixel)
  unswizzleNM : Image → Image

/-- readMipMap from mip_map.go, over the remaining stream: width (2 bytes,
top bit = LZO flag for DXT), height (2 bytes), 3-byte length, payload;
(0,0) is the dummy terminator; raw when the stored length matches the
expected size, otherwise LZO (DXT, flagged), LZSS (non-DXT), or
InsufficientData (DXT without the flag). -/
def readMipMap (c : Codecs) (paxType : PaxType) (s : List Nat) :
    Except Err (Option MipMap × List Nat) :=
  if s.length < 4 then Except.error Err.ReadFailed
  else
    let w := u16ofLE (s.getD 0 0) (s.getD 1 0)
    let h := u16ofLE (s.getD 2 0) (s.getD 3 0)
    if w = 0 ∧ h = 0 then Except.ok (none, s.drop 4)
    else
      let lzoFlag := isDXT paxType ∧ w &&& 0x8000 ≠ 0
      let width := if lzoFlag then w &&& 0x7FFF else w
      if s.length < 7 then Except.error Err.ReadFailed
      else
        let storedSize := s.getD 4 0 ||| ((s.getD 5 0) <<< 8) ||| ((s.getD 6 0) <<< 16)
        if s.length < 7 + storedSize then Except.error Err.ReadFailed
        else
          let payload := (s.drop 7).take storedSize
          let rest := s.drop (7 + storedSize)
          let expectedRaw := expectedMipSize paxType width h
          if expectedRaw < 0 then Except.error Err.UnsupportedPixelFmt
          else if (storedSize : Int) = expectedRaw then
            Except.ok (some ⟨payload, paxType, width, h⟩, rest)
          else if isDXT paxType then
            if ¬lzoFlag then Except.error Err.InsufficientData
            else
              match c.lzoDecompress payload expectedRaw.toNat with
              | Except.error _ => Except.error Err.LZODecompress
              | Except.ok dec => Except.ok (some ⟨dec, paxType, width, h⟩, rest)
          else
            match c.lzssDecompress payload expectedRaw.toNat with
            | Except.error _ => Except.error Err.LZSSDecompress
            | Except.ok dec => Except.ok (some ⟨dec, paxType, width, h⟩, rest)

/-- The ARGB4444 per-pair decode of decodePixelFormat: a 16-bit word read
little-endian, each nibble expanded by a left shift. -/
def decodeARGB4Pixels (raw : List Nat) : List Pixel :=
  match raw with
  | b0 :: b1 :: rest =>
    let p := u16ofLE b0 b1
    ⟨(p &&& 0x0F) <<< 4, ((p >>> 4) &&& 0x0F) <<< 4, ((p >>> 8) &&& 0x0F) <<< 4,
      ((p >>> 12) &&& 0x0F) <<< 4⟩ :: decodeARGB4Pixels rest
  | _ => []

/-- The ARGB1555 per-pair decode of decodePixelFormat. -/
def decodeARGBA5Pixels (raw : List Nat) : List Pixel :=
  match raw with
  | b0 :: b1 :: rest =>
    let p := u16ofLE b0 b1
    let a := if p &&& 0x8000 ≠ 0 then 255 else 0
    ⟨((p >>> 10) &&& 0x1F) <<< 3, ((p >>> 5) &&& 0x1F) <<< 3, (p &&& 0x1F) <<< 3, a⟩ ::
      decodeARGBA5Pixels rest
  | _ => []

/-- The GRAYA per-pair decode of decodePixelFormat. -/
def decodeGRAYAPixels (raw : List Nat) : List Pixel :=
  match raw with
  | v :: a :: rest => ⟨v, v, v, a⟩ :: decodeGRAYAPixels rest
  | _ => []

/-- The ARGB8 per-quadruple decode of decodePixelFormat (stored B,G,R,A). -/
def decodeARGB8Pixels (raw : List Nat) : List Pixel :=
  match raw with
  | b :: g :: r :: a :: rest => ⟨r, g, b, a⟩ :: decodeARGB8Pixels rest
  | _ => []

/-- decodePixelFormat from the pixel decoder: raw uncompressed bytes into a
width*height NRGBA buffer (zero-initialized, so unwritten tail pixels stay
zero); ARGB8 and GRAYA check the payload length first, the 16-bit formats
iterate over len/2 pairs and would overrun the buffer on oversized input
(a runtime panic in the source). -/
def decodePixelFormat (format : PaxType) (rawData : List Nat) (w h : Nat) :
    Except Err (List Pixel) :=
  match format with
  | PaxType.ARGB8 =>
    if rawData.length < w * h * 4 then Except.error Err.InsufficientData
    else Except.ok (decodeARGB8Pixels (rawData.take (w * h * 4)))
  | PaxType.ARGBA5 =>
    let written := decodeARGBA5Pixels rawData
    if written.length > w * h then Except.error Err.RuntimePanic
    else Except.ok (written ++ List.replicate (w * h - written.length) ⟨0, 0, 0, 0⟩)
  | PaxType.ARGB4 =>
    let written := decodeARGB4Pixels rawData
    if written.length > w * h then Except.error Err.RuntimePanic
    else Except.ok (written ++ List.replicate (w * h - written.length) ⟨0, 0, 0, 0⟩)
  | PaxType.GRAYA =>
    if rawData.length < w * h * 2 then Except.error Err.InsufficientData
    else Except.ok (decodeGRAYAPixels (rawData.take (w * h * 2)))
  | _ => Except.error Err.UnsupportedPixelFmt

/-- paxToBcnFormat from mip_map.go, as the PaxType handed to the BCn decoder
(DXT2 reads as DXT3, DXT4 reads as DXT5); none is FormatUnknown. -/
def paxToBcnFormat (p : PaxType) : Option PaxType :=
  match p with
  | PaxType.DXT1 => some PaxType.DXT1
  | PaxType.DXT3 => some PaxType.DXT3
  | PaxType.DXT5 => some PaxType.DXT5
  | PaxType.DXT2 => some PaxType.DXT3
  | PaxType.DXT4 => some PaxType.DXT5
  | _ => none

/-- MipMap.Image from mip_map.go: decode one mip into an RGBA image,
via the external BCn decoder for DXT and decodePixelFormat otherwise. -/
def mipImage (c : Codecs) (m : MipMap) : Except Err Image :=
  if m.Width = 0 ∨ m.Height = 0 ∨ m.Data.length = 0 then Except.error Err.InsufficientData
  else if isDXT m.Typ then
    match paxToBcnFormat m.Typ with
    | none => Except.error Err.UnsupportedPixelFmt
    | some bf =>
      match c.bcnDecode m.Data m.Width m.Height bf with
      | Except.error _ => Except.error Err.DXTDecode
      | Except.ok pix => Except.ok ⟨m.Width, m.Height, pix⟩
  else
    match decodePixelFormat m.Typ m.Data m.Width m.Height with
    | Except.error e => Except.error e
    | Except.ok pix => Except.ok ⟨m.Width, m.Height, pix⟩

/-- PAA from paa.go: tag map, mip list and pixel format of a decoded file. -/
structure PAA where
  Taggs : List (List Nat × List Nat)
  MipMaps : List MipMap
  Typ : PaxType

/-- The mip-reading loop of DecodePAA: seek to each SFFO offset and read one
mip block, skipping dummy blocks. -/
def readMipsAt (c : Codecs) (paxType : PaxType) (s : List Nat) :
    List Nat → Except Err (List MipMap)
  | [] => Except.ok []
  | offset :: restOff =>
    match readMipMap c paxType (s.drop offset) with
    | Except.error e => Except.error e
    | Except.ok (none, _) => readMipsAt c paxType s restOff
    | Except.ok (some mm, _) =>
      match readMipsAt c paxType s restOff with
      | Except.error e => Except.error e
      | Except.ok rest => Except.ok (mm :: rest)

/-- DecodePAA from read.go: magic, tags, SFFO offsets, then one mip per
non-zero offset (the whole input is buffered, so seeking is list indexing). -/
def DecodePAA (c : Codecs) (s : List Nat) : Except Err PAA :=
  match readPaxTypeE s with
  | Except.error e => Except.error e
  | Except.ok pType =>
    match readGGATTags (s.drop 2) with
    | Except.error e => Except.error e
    | Except.ok (tags, _) =>
      match sffoOffsets tags with
      | Except.error e => Except.error e
      | Except.ok offsets =>
        match readMipsAt c pType s offsets with
        | Except.error e => Except.error e
        | Except.ok mips => Except.ok ⟨tags, mips, pType⟩

/-- MipHeader from the metadata reader: per-mip offset and dimensions. -/
structure MipHeader where
  Offset : Nat
  Height : Nat
  Width : Nat
  deriving DecidableEq, Repr

/-- Metadata from the metadata reader. -/
structure Metadata where
  Taggs : List (List Nat × List Nat)
  MipHeaders : List MipHeader
  Typ : PaxType

/-- The header-reading loop of DecodeMetadata: at each offset read width and
height only, skip the dummy, and mask the LZO bit for DXT formats. -/
def readMipHeadersAt (paxType : PaxType) (s : List Nat) :
    List Nat → Except Err (List MipHeader)
  | [] => Except.ok []
  | offset :: restOff =>
    let sub := s.drop offset
    if sub.length < 4 then Except.error Err.ReadFailed
    else
      let w := u16ofLE (sub.getD 0 0) (sub.getD 1 0)
      let h := u16ofLE (sub.getD 2 0) (sub.getD 3 0)
      if w = 0 ∧ h = 0 then readMipHeadersAt paxType s restOff
      else
        let w2 := if isDXT paxType ∧ w &&& 0x8000 ≠ 0 then w &&& 0x7FFF else w
        match readMipHeadersAt paxType s restOff with
        | Except.error e => Except.error e
        | Except.ok rest => Except.ok (⟨offset, h, w2⟩ :: rest)

/-- DecodeMetadata from the metadata reader: magic, tags, SFFO offsets and
per-mip headers, without touching payload bytes. -/
def DecodeMetadata (s : List Nat) : Except Err Metadata :=
  match readPaxTypeE s with
  | Except.error e => Except.error e
  | Except.ok pType =>
    match readGGATTags (s.drop 2) with
    | Except.error e => Except.error e
    | Except.ok (tags, _) =>
      match sffoOffsets tags with
      | Except.error e => Except.error e
      | Except.ok offsets =>
        match readMipHeadersAt pType s offsets with
        | Except.error e => Except.error e
        | Except.ok headers => Except.ok ⟨tags, headers, pType⟩

/-- The canonical nohq SWIZTAGG payload (swizzleDXT5NM). -/
def swizzleDXT5NM : List Nat := [0x05, 0x04, 0x02, 0x03]

/-- The ADSHQ special-case SWIZTAGG payload recognized by applySwizzleTag. -/
def adshqTag : List Nat := [0x02, 0x09, 0x03, 0x09]

/-- The per-channel selector of applySwizzlePayload: bit 3 forces 0xFF,
bit 2 negates, bits 1-0 pick the source channel (00=A, 01=R, 10=G, 11=B). -/
def swizSel (p : Pixel) (t : Nat) : Nat :=
  if t &&& 0x08 ≠ 0 then 0xFF
  else
    let v :=
      match t &&& 0x3 with
      | 0 => p.a
      | 1 => p.r
      | 2 => p.g
      | _ => p.b
    if t &&& 0x04 ≠ 0 then 255 - v else v

/-- The per-pixel remap of applySwizzlePayload; the four tag bytes are in
A, R, G, B output order. -/
def swizPixel (tag : List Nat) (p : Pixel) : Pixel :=
  ⟨swizSel p (tag.getD 1 0), swizSel p (tag.getD 2 0), swizSel p (tag.getD 3 0),
    swizSel p (tag.getD 0 0)⟩

/-- applySwizzlePayload from the swizzle engine: apply a generic SWIZTAGG
payload to every pixel. -/
def applySwizzlePayload (img : Image) (tag : List Nat) : Image :=
  ⟨img.w, img.h, img.pix.map (swizPixel tag)⟩

/-- applyADSHQSwizzle from the swizzle engine: R=0, G=A, B=A, A=A. -/
def applyADSHQSwizzle (img : Image) : Image :=
  ⟨img.w, img.h, img.pix.map (fun p => ⟨0, p.a, p.a, p.a⟩)⟩

/-- applySwizzleTag from read.go: apply the ZIWS tag to the decoded first
mip when the tag exists, is 4 bytes long and the texture is DXT5; the
nohq payload dispatches to the float64 inverse (a Codecs parameter), the
ADSHQ payload to its special case, anything else to the generic rule. -/
def applySwizzleTag (unswizzleNM : Image → Image) (p : PAA) (img : Image) : Image :=
  match mapGet p.Taggs ziwsName with
  | none => img
  | some tag =>
    if tag.length ≠ 4 ∨ p.Typ ≠ PaxType.DXT5 then img
    else if tag = swizzleDXT5NM then unswizzleNM img
    else if tag = adshqTag then applyADSHQSwizzle img
    else applySwizzlePayload img tag

/-- Decode from read.go (DecodeWithOptions): full container decode, first
mip to RGBA, then the ZIWS swizzle. -/
def Decode (c : Codecs) (s : List Nat) : Except Err Image :=
  match DecodePAA c s with
  | Except.error e => Except.error e
  | Except.ok p =>
    match p.MipMaps with
    | [] => Except.error Err.NoMipmaps
    | m :: _ =>
      match mipImage c m with
      | Except.error e => Except.error e
      | Except.ok img => Except.ok (applySwizzleTag c.unswizzleNM p img)

end Paa

namespace TexConfig

open Paa

/-- TexFormat from the texconfig package: the target format names of
TexConvert.cfg. -/
inductive TexFormat where
  | Default
  | P8
  | ARGB4444
  | ARGB1555
  | AI88
  | DXT1
  | DXT2
  | DXT3
  | DXT4
  | DXT5
  deriving DecidableEq, Repr

/-- MipmapFilter from the texconfig package. -/
inductive MipmapFilter where
  | Default
  | FadeOutAlpha
  | NormalizeNormalMap
  | FadeOut
  | AlphaNoise
  | NormalizeNormalMapAlpha
  | NormalizeNormalMapNoise
  | NormalizeNormalMapFade
  | AddAlphaNoise
  deriving DecidableEq, Repr

/-- ErrorMetrics from the texconfig package (the NormalMap value was added
in release 0.1.1 together with the 5/5/5 weights). -/
inductive ErrorMetrics where
  | Default
  | Distance
  | NormalMap
  deriving DecidableEq, Repr

/-- SwizzleSource from the texconfig package: which input channel to use. -/
inductive SwizzleSource where
  | A
  | R
  | G
  | B
  deriving DecidableEq, Repr

/-- SwizzleExpr from the texconfig package: one output-channel expression
(a source, its inverse, or the constants 0 and 1). -/
structure SwizzleExpr where
  Source : SwizzleSource
  Valid : Bool
  IsConst : Bool
  ConstValue : Nat
  Invert : Bool
  deriving DecidableEq, Repr

/-- SwizzleExpr.isDefault: invalid expressions count as the default, a
constant never does, otherwise the source must match without inversion. -/
def exprIsDefault (e : SwizzleExpr) (def0 : SwizzleSource) : Bool :=
  if ¬e.Valid then true
  else if e.IsConst then false
  else e.Source = def0 ∧ ¬e.Invert

/-- ChannelSwizzle from the texconfig package. -/
structure ChannelSwizzle where
  R : SwizzleExpr
  G : SwizzleExpr
  B : SwizzleExpr
  A : SwizzleExpr
  deriving DecidableEq, Repr

/-- ChannelSwizzle.IsIdentity. -/
def IsIdentity (s : ChannelSwizzle) : Bool :=
  exprIsDefault s.R SwizzleSource.R ∧ exprIsDefault s.G SwizzleSource.G ∧
    exprIsDefault s.B SwizzleSource.B ∧ exprIsDefault s.A SwizzleSource.A

/-- The source-selector arm of ziwsValue: sources map to 0x00-0x03 and
inverted sources to 0x04-0x07. -/
def ziwsSourceValue (src : SwizzleSource) (invert : Bool) : Nat × Bool :=
  match src with
  | SwizzleSource.A => if invert then (0x04, true) else (0x00, true)
  | SwizzleSource.R => if invert then (0x05, true) else (0x01, true)
  | SwizzleSource.G => if invert then (0x06, true) else (0x02, true)
  | SwizzleSource.B => if invert then (0x07, true) else (0x03, true)

/-- ziwsValue from the texconfig package: serialize one expression to its
SWIZTAGG selector byte; constant 0 maps to 0x09 (ziwsZero), constant 1 to
0x08 (ziwsOne).  An invalid expression recurses in the source on the
valid default-source expression, which lands in the source match: that
single recursion step is inlined here. -/
def ziwsValue (expr : SwizzleExpr) (def0 : SwizzleSource) : Nat × Bool :=
  if ¬expr.Valid then
    ziwsSourceValue def0 false
  else if expr.IsConst then
    if expr.ConstValue = 0 then (0x09, true) else (0x08, true)
  else
    ziwsSourceValue expr.Source expr.Invert

/-- ZIWSTag from the texconfig package: the SWIZTAGG payload of a swizzle in
A, R, G, B order; identity yields ok=false, an unsupported expression an
error (with the enumerated SwizzleSource no expression is unsupported). -/
def ZIWSTag (s : ChannelSwizzle) : Except Unit (Option (List Nat)) :=
  if IsIdentity s then Except.ok none
  else
    let a := ziwsValue s.A SwizzleSource.A
    if ¬a.2 then Except.error ()
    else
      let r := ziwsValue s.R SwizzleSource.R
      if ¬r.2 then Except.error ()
      else
        let g := ziwsValue s.G SwizzleSource.G
        if ¬g.2 then Except.error ()
        else
          let b := ziwsValue s.B SwizzleSource.B
          if ¬b.2 then Except.error ()
          else Except.ok (some [a.1, r.1, g.1, b.1])

/-- TextureHint from the texconfig package (resolved class entry). -/
structure TextureHint where
  EnableDXT : Option Bool
  DynRange : Option Bool
  AutoReduce : Option Bool
  VirtualSwz : Option Bool
  Dithering : Option Bool
  ClassName : String
  Extends : String
  Pattern : String
  Swizzle : ChannelSwizzle
  Format : TexFormat
  MipmapFilter : MipmapFilter
  ErrorMetrics : ErrorMetrics
  LimitSize : Nat
  deriving DecidableEq, Repr

/-- TexConvertConfig from the texconfig package: version, ordered hint list
and the four global toggles. -/
structure TexConvertConfig where
  Hints : List TextureHint
  ConvertVersion : Int
  ApplyDefaultErrorMetrics : Bool
  UseSRGBFromDynRange : Bool
  DisableAutoReduce : Bool
  DisableLZO : Bool
  deriving DecidableEq, Repr

/-- Clone from resolver.go: the copy made on reading and writing the
process-wide default config; the struct literal initializes only
ConvertVersion and Hints, so the remaining fields take their zero value. -/
def Clone (c : TexConvertConfig) : TexConvertConfig :=
  { Hints := c.Hints
    ConvertVersion := c.ConvertVersion
    ApplyDefaultErrorMetrics := false
    UseSRGBFromDynRange := false
    DisableAutoReduce := false
    DisableLZO := false }

/-- SetDefaultTexConvertConfig from default_values.go: the stored state
after the setter runs (the argument is cloned in). -/
def SetDefaultTexConvertConfig (cfg : TexConvertConfig) : TexConvertConfig :=
  Clone cfg

/-- DefaultTexConvertConfig from default_values.go: the snapshot returned to
the caller (the stored state is cloned out). -/
def DefaultTexConvertConfig (stored : TexConvertConfig) : TexConvertConfig :=
  Clone stored

/-- Alpha-channel statistics collected by scanAlpha. -/
structure AlphaStats where
  hasAlpha : Bool
  allHigh : Bool
  isBinary : Bool
  deriving DecidableEq, Repr

/-- The per-pixel update of the scanAlpha loop: alpha below 255 sets
hasAlpha, alpha below 0xF0 clears allHigh, alpha outside {0, 255}
clears isBinary. -/
def scanAlphaStep (st : AlphaStats) (p : Pixel) : AlphaStats :=
  { hasAlpha := st.hasAlpha || decide (p.a < 255)
    allHigh := st.allHigh && !decide (p.a < 0xF0)
    isBinary := st.isBinary && (decide (p.a = 0) || decide (p.a = 255)) }

/-- scanAlpha from the policy engine: fold the statistics over the image,
then force isBinary for an image with no alpha. -/
def scanAlpha (img : Image) : AlphaStats :=
  let st := img.pix.foldl scanAlphaStep ⟨false, true, true⟩
  if ¬st.hasAlpha then { st with isBinary := true } else st

/-- selectPaxType from the policy engine: map the hint format and the alpha
statistics to a PaxType or UnsupportedFormat. -/
def selectPaxType (stats : AlphaStats) (hint : TextureHint) : Except Paa.Err PaxType :=
  match hint.Format with
  | TexFormat.Default =>
    if stats.allHigh || !stats.hasAlpha || stats.isBinary then Except.ok PaxType.DXT1
    else Except.ok PaxType.DXT5
  | TexFormat.DXT1 => Except.ok PaxType.DXT1
  | TexFormat.DXT5 => Except.ok PaxType.DXT5
  | TexFormat.DXT2 => Except.error Paa.Err.UnsupportedFormat
  | TexFormat.DXT3 => Except.error Paa.Err.UnsupportedFormat
  | TexFormat.DXT4 => Except.error Paa.Err.UnsupportedFormat
  | TexFormat.ARGB4444 => Except.ok PaxType.ARGB4
  | TexFormat.ARGB1555 => Except.ok PaxType.ARGBA5
  | TexFormat.AI88 => Except.ok PaxType.GRAYA
  | TexFormat.P8 => Except.error Paa.Err.UnsupportedFormat

/-- The slice of the external bcn.EncodeOptions touched by the embedded
code: only the RGBWeights field is read or written here. -/
structure BcnEncodeOptions where
  RGBWeights : Option (Nat × Nat × Nat)
  deriving DecidableEq, Repr

/-- EncodeOptions from encode_options.go; the Go zero value of Type and of
the pointer fields is represented with none. -/
structure EncodeOptions where
  BCn : Option BcnEncodeOptions
  Swizzle : Option ChannelSwizzle
  GenerateMipmaps : Option Bool
  MipmapFilter : Option MipmapFilter
  MaxMipCount : Nat
  MinMipSize : Nat
  Typ : Option PaxType
  SwizzleTag : List Nat
  NormalMapSwizzle : Bool
  WriteNohqSwizzleTag : Bool
  WriteSwizzleTag : Bool
  SkipSwizzle : Bool
  WriteGALF : Bool
  GALFValue : Nat
  ForceCXAMFull : Bool
  UseLZO : Bool
  ForceLZSS : Bool
  UseSRGB : Bool
  deriving DecidableEq, Repr

/-- The zero EncodeOptions value. -/
def emptyEncodeOptions : EncodeOptions :=
  ⟨none, none, none, none, 0, 0, none, [], false, false, false, false, false, 0, false, false,
    false, false⟩

/-- ensureBCnOptions followed by an RGBWeights assignment, functionally. -/
def setRGBWeights (o : EncodeOptions) (wts : Nat × Nat × Nat) : EncodeOptions :=
  { o with BCn := some ⟨some wts⟩ }

/-- isDetailHint from the policy engine. -/
def isDetailHint (hint : TextureHint) : Bool :=
  hint.ClassName = "detail" ∨ hint.ClassName = "detail_short"

/-- isTexViewUnsupported from the policy engine: class names rejected
because TexView crashes on them. -/
def isTexViewUnsupported (hint : TextureHint) : Bool :=
  hint.ClassName = "TexRGBA8888" ∨ hint.ClassName = "ColorMapRaw" ∨
    hint.ClassName = "layer_color_draft"

/-- The swizzle block of EncodeOptionsFromHint: for a non-identity swizzle,
emit the SWIZTAGG when VirtualSwz is unset or true, then either attach the
pixel-path swizzle or set SkipSwizzle. -/
def swizzleOptions (hint : TextureHint) (skipSwizzle : Bool) (opts : EncodeOptions) :
    Except Paa.Err EncodeOptions :=
  if ¬IsIdentity hint.Swizzle then
    match
      (if hint.VirtualSwz = none ∨ hint.VirtualSwz = some true then
        match ZIWSTag hint.Swizzle with
        | Except.error _ => Except.error Paa.Err.SwizzleExprUnsupported
        | Except.ok none => Except.ok opts
        | Except.ok (some tag) => Except.ok { opts with WriteSwizzleTag := true, SwizzleTag := tag }
      else Except.ok opts : Except Paa.Err EncodeOptions)
    with
    | Except.error e => Except.error e
    | Except.ok o =>
      if ¬skipSwizzle then Except.ok { o with Swizzle := some hint.Swizzle }
      else Except.ok { o with SkipSwizzle := true }
  else Except.ok opts

/-- The format-driven option block of EncodeOptionsFromHint: the zero
options with the selected type, then the LZO, CXAM and LZSS flags. -/
def baseOptions (paxType : PaxType) (cfg : TexConvertConfig) : EncodeOptions :=
  let opts := { emptyEncodeOptions with Typ := some paxType }
  let opts := if isDXT paxType ∧ ¬cfg.DisableLZO then { opts with UseLZO := true } else opts
  let opts := if isDXT paxType then { opts with ForceCXAMFull := true } else opts
  let opts :=
    if paxType = PaxType.ARGB4 then { opts with ForceCXAMFull := true, ForceLZSS := true }
    else opts
  if paxType = PaxType.ARGBA5 ∨ paxType = PaxType.ARGB8 then
    { opts with ForceCXAMFull := true }
  else opts

/-- The trailing option block of EncodeOptionsFromHint: GALF from the alpha
statistics and the detail classes, error-metric weights, mipmap filter
and sRGB. -/
def postSwizzleOptions (stats : AlphaStats) (hint : TextureHint) (cfg : TexConvertConfig)
    (o1 : EncodeOptions) : EncodeOptions :=
  let o2 :=
    if ¬stats.allHigh then
      { o1 with WriteGALF := true, GALFValue := if stats.isBinary then 2 else 1 }
    else o1
  let o3 := if isDetailHint hint then { o2 with WriteGALF := true, GALFValue := 2 } else o2
  let o4 :=
    match hint.ErrorMetrics with
    | ErrorMetrics.Distance => setRGBWeights o3 (5, 5, 0)
    | ErrorMetrics.NormalMap => setRGBWeights o3 (5, 5, 5)
    | ErrorMetrics.Default =>
      if cfg.ApplyDefaultErrorMetrics then setRGBWeights o3 (5, 9, 2) else o3
  let o5 :=
    if hint.MipmapFilter ≠ MipmapFilter.Default then
      { o4 with MipmapFilter := some hint.MipmapFilter }
    else o4
  if cfg.UseSRGBFromDynRange ∧ hint.DynRange = some true then { o5 with UseSRGB := true }
  else o5

/-- EncodeOptionsFromHint from the policy engine: reject TexView-unsupported
classes and non-DXT-incompatible formats, pick the PaxType, then derive
LZO, CXAM, LZSS, SWIZTAGG, GALF, error-metric, filter and sRGB options. -/
def EncodeOptionsFromHint (img : Image) (hint : TextureHint) (cfg : TexConvertConfig)
    (skipSwizzle : Bool) : Except Paa.Err EncodeOptions :=
  let stats := scanAlpha img
  if isTexViewUnsupported hint then Except.error Paa.Err.UnsupportedFormat
  else if hint.EnableDXT = some false ∧
      ¬(hint.Format = TexFormat.ARGB4444 ∨ hint.Format = TexFormat.ARGB1555 ∨
        hint.Format = TexFormat.AI88 ∨ hint.Format = TexFormat.P8) then
    Except.error Paa.Err.UnsupportedFormat
  else
    match selectPaxType stats hint with
    | Except.error e => Except.error e
    | Except.ok paxType =>
      match swizzleOptions hint skipSwizzle (baseOptions paxType cfg) with
      | Except.error e => Except.error e
      | Except.ok o1 => Except.ok (postSwizzleOptions stats hint cfg o1)

end TexConfig

namespace Paa

/-- The ARGB4444 per-pixel encode of encodePixelFormat: nibbles packed as
(A shifted 12) or (B shifted 8) or (G shifted 4) or R, little-endian. -/
def encARGB4Pixel (p : Pixel) : List Nat :=
  let word := ((p.a >>> 4) <<< 12) ||| ((p.b >>> 4) <<< 8) ||| ((p.g >>> 4) <<< 4) ||| (p.r >>> 4)
  [word % 256, (word >>> 8) % 256]

/-- The ARGB1555 per-pixel encode of encodePixelFormat. -/
def encARGBA5Pixel (p : Pixel) : List Nat :=
  let a := if 128 ≤ p.a then 1 else 0
  let word := (a <<< 15) ||| ((p.r >>> 3) <<< 10) ||| ((p.g >>> 3) <<< 5) ||| (p.b >>> 3)
  [word % 256, (word >>> 8) % 256]

/-- The GRAYA per-pixel encode of encodePixelFormat; the source computes the
luminance in float64 and rounds half away from zero, embedded here as the
equivalent exact integer computation on 8-bit inputs. -/
def encGRAYAPixel (p : Pixel) : List Nat :=
  [(299 * p.r + 587 * p.g + 114 * p.b + 500) / 1000, p.a]

/-- encodePixelFormat from the pixel encoder: raw uncompressed bytes for the
four non-DXT formats; empty dimensions fail with InvalidDimensions. -/
def encodePixelFormat (format : PaxType) (img : Image) : Except Err (List Nat) :=
  if img.w = 0 ∨ img.h = 0 then Except.error Err.InvalidDimensions
  else
    match format with
    | PaxType.ARGB8 => Except.ok (img.pix.flatMap (fun p => [p.b, p.g, p.r, p.a]))
    | PaxType.ARGBA5 => Except.ok (img.pix.flatMap encARGBA5Pixel)
    | PaxType.ARGB4 => Except.ok (img.pix.flatMap encARGB4Pixel)
    | PaxType.GRAYA => Except.ok (img.pix.flatMap encGRAYAPixel)
    | _ => Except.error Err.UnsupportedPixelFmt

/-- One mip block assembled by EncodeWithOptions before emission. -/
structure MipBlock where
  w : Nat
  h : Nat
  data : List Nat
  useLZ : Bool
  deriving DecidableEq, Repr

/-- writeTag from write.go: GGAT, name, uint32 length, payload. -/
def tagB (name payload : List Nat) : List Nat :=
  ggatSig ++ name ++ u32Bytes payload.length ++ payload

/-- The offset computation of EncodeWithOptions (lines 293-302): header (2)
plus the CGVA and CXAM tags (16 each), 16 more for each of GALF and ZIWS
when present, then 76 for the SFFO tag with its 64-byte payload and 2 for
the end-of-tags sentinel. -/
def paaBaseOffset (writeGALF writeZIWS : Bool) : Nat :=
  let offset := 2 + 16 + 16
  let offset := if writeGALF then offset + 16 else offset
  let offset := if writeZIWS then offset + 16 else offset
  offset + 76 + 2

/-- binary.LittleEndian.PutUint32 into a byte buffer at a position. -/
def putUint32LE (buf : List Nat) (pos v : Nat) : List Nat :=
  (((buf.set pos (v % 256)).set (pos + 1) ((v >>> 8) % 256)).set
      (pos + 2) ((v >>> 16) % 256)).set (pos + 3) ((v >>> 24) % 256)

/-- The SFFO fill loop of EncodeWithOptions (lines 304-310): one uint32
entry per mip while fewer than 16 entries are written, each offset 7 bytes
plus the previous payload length after the previous one. -/
def sffoFill (buf : List Nat) (i off : Nat) : List MipBlock → List Nat
  | [] => buf
  | m :: rest =>
    if i < 16 then
      sffoFill (putUint32LE buf (4 * i) (off % 4294967296)) (i + 1)
        (off + 2 + 2 + 3 + m.data.length) rest
    else buf

/-- The 64-byte SFFO payload emitted by EncodeWithOptions. -/
def sffoPayload (writeGALF writeZIWS : Bool) (mips : List MipBlock) : List Nat :=
  sffoFill (List.replicate 64 0) 0 (paaBaseOffset writeGALF writeZIWS) mips

/-- The per-mip emission of EncodeWithOptions (lines 319-356): width with
the LZO flag in bit 15, height, 3-byte length, payload; dimension
overflows fail with InvalidDimensions. -/
def encodeMipBlockBytes (m : MipBlock) : Except Err (List Nat) :=
  if m.useLZ ∧ 0x7fff < m.w then Except.error Err.InvalidDimensions
  else if ¬m.useLZ ∧ 0xffff < m.w then Except.error Err.InvalidDimensions
  else if 0xffff < m.h then Except.error Err.InvalidDimensions
  else
    let storedW := if m.useLZ then m.w ||| 0x8000 else m.w
    Except.ok (u16Bytes storedW ++ u16Bytes m.h ++
      [m.data.length % 256, (m.data.length >>> 8) % 256, (m.data.length >>> 16) % 256] ++ m.data)

/-- The mip-emission loop of EncodeWithOptions: every block of the list is
written, in order, with no count limit. -/
def encodeMipSection : List MipBlock → Except Err (List Nat)
  | [] => Except.ok []
  | m :: rest =>
    match encodeMipBlockBytes m with
    | Except.error e => Except.error e
    | Except.ok b =>
      match encodeMipSection rest with
      | Except.error e => Except.error e
      | Except.ok bs => Except.ok (b ++ bs)

/-- The emission stage of EncodeWithOptions (lines 242-363): magic, CGVA,
CXAM, optional GALF and ZIWS, SFFO, the two-byte sentinel, every mip
block, and the six zero padding bytes. -/
def encodePAACore (paxType : PaxType) (cgva cxam : List Nat) (writeGALF : Bool) (galfValue : Nat)
    (writeZIWS : Bool) (ziwsTag : List Nat) (mips : List MipBlock) : Except Err (List Nat) :=
  match encodeMipSection mips with
  | Except.error e => Except.error e
  | Except.ok mipSec =>
    Except.ok (ptBytes paxType ++ tagB cgvaName cgva ++ tagB cxamName cxam ++
      (if writeGALF then tagB galfName [galfValue, 0, 0, 0] else []) ++
      (if writeZIWS then tagB ziwsName ziwsTag else []) ++
      tagB sffoName (sffoPayload writeGALF writeZIWS mips) ++
      [0, 0] ++ mipSec ++ [0, 0, 0, 0, 0, 0])

/-- The mip-image truncation loop of EncodeWithOptions (lines 162-177) over
the dimension list produced by the external mip generator: append each
level, stop after it when the count cap is reached or when both
dimensions are at most minMipSize. -/
def collectMipLoop (acc rem : List (Nat × Nat)) (maxMipCount minMipSize : Nat) :
    List (Nat × Nat) :=
  match rem with
  | [] => acc
  | m :: rest =>
    let acc2 := acc ++ [m]
    if 0 < maxMipCount ∧ maxMipCount ≤ acc2.length then acc2
    else if m.1 ≤ minMipSize ∧ m.2 ≤ minMipSize then acc2
    else collectMipLoop acc2 rest maxMipCount minMipSize

/-- The collected mip levels of EncodeWithOptions for a generated chain. -/
def collectMipImages (gen : List (Nat × Nat)) (maxMipCount minMipSize : Nat) :
    List (Nat × Nat) :=
  collectMipLoop [] gen maxMipCount minMipSize

/-- The 32-bit entry i of a SFFO payload (the value the reader recovers with
binary.LittleEndian.Uint32 at byte 4i). -/
def sffoEntryAt (buf : List Nat) (i : Nat) : Nat :=
  u32At buf (4 * i)

/-- The cumulative stored size of a mip list: 7 header bytes plus the
payload length per block. -/
def chainCost (mips : List MipBlock) : Nat :=
  (mips.map (fun m => 7 + m.data.length)).sum

/-- The payload of the last occurrence of a tag name in an entry list. -/
def lastPayload (entries : List (List Nat × List Nat)) (name : List Nat) : Option (List Nat) :=
  (entries.reverse.find? (fun e => decide (e.1 = name))).map (fun e => e.2)

/-- The byte stream of a list of tags, each serialized as the writer does. -/
def tagStream (entries : List (List Nat × List Nat)) : List Nat :=
  (entries.map (fun e => tagB e.1 e.2)).flatten

/-- The tag map that results from storing a list of entries in order. -/
def tagsOf (acc : List (List Nat × List Nat)) (entries : List (List Nat × List Nat)) :
    List (List Nat × List Nat) :=
  entries.foldl (fun m e => mapSet m e.1 e.2) acc

/-- Stub external collaborators: decompressors and block decoder that always
fail, identity inverse swizzle.  Used to evaluate paths that never reach
the external code. -/
def cStub : Codecs :=
  ⟨fun _ _ => Except.error (), fun _ _ => Except.error (), fun _ _ _ _ => Except.error (), id⟩

/-- The dimension chain of a 65535 by 1 source image under repeated
power-of-two halving: seventeen levels. -/
def chain17 : List (Nat × Nat) :=
  [(65535, 1), (32768, 1), (16384, 1), (8192, 1), (4096, 1), (2048, 1), (1024, 1), (512, 1),
    (256, 1), (128, 1), (64, 1), (32, 1), (16, 1), (8, 1), (4, 1), (2, 1), (1, 1)]

/-- Seventeen assembled mip blocks with the dimensions of chain17 and a
2-byte stored payload each. -/
def mips17 : List MipBlock :=
  chain17.map (fun d => ⟨d.1, d.2, [7, 7], false⟩)

/-- The tag entries of the one-mip GRAYA demo encode. -/
def c1Entries : List (List Nat × List Nat) :=
  [(cgvaName, [0, 0, 0, 0]), (cxamName, [255, 255, 255, 255]),
    (sffoName, sffoPayload false false [⟨1, 1, [7, 7], false⟩])]

/-- The bytes after the tag section of the one-mip GRAYA demo encode:
sentinel, one mip block, padding. -/
def c1Rest : List Nat :=
  [0, 0] ++ [1, 0, 1, 0, 2, 0, 0, 7, 7] ++ [0, 0, 0, 0, 0, 0]

/-- Tag entries holding the CGVA name twice (payloads [1,1,1,1] then
[9,9,9,9]) before SFFO, whose single offset 50 points at the mip block
that follows the tag section. -/
def dupEntries : List (List Nat × List Nat) :=
  [(cgvaName, [1, 1, 1, 1]), (cgvaName, [9, 9, 9, 9]), (sffoName, u32Bytes 50)]

/-- One 1 by 1 GRAYA mip block (luminance 7, alpha 7). -/
def dupRest : List Nat :=
  [1, 0, 1, 0, 2, 0, 0, 7, 7]

/-- A GRAYA stream whose tag section holds the CGVA name twice. -/
def dupTagStream : List Nat :=
  [128, 128] ++ (tagStream dupEntries ++ dupRest)

/-- A GRAYA stream whose SFFO tag is present but holds only zero bytes. -/
def allZeroSffoStream : List Nat :=
  [128, 128] ++ (tagStream [(sffoName, List.replicate 8 0)] ++ [0, 0, 0, 0])

/-- Tag entries carrying a recognized non-identity ZIWS tag [1,0,3,2] and a
single SFFO offset 34 pointing at the mip block after the tag section. -/
def ziwsEntries : List (List Nat × List Nat) :=
  [(ziwsName, [1, 0, 3, 2]), (sffoName, u32Bytes 34)]

/-- One 1 by 1 GRAYA mip block (luminance 5, alpha 9). -/
def ziwsRest : List Nat :=
  [1, 0, 1, 0, 2, 0, 0, 5, 9]

/-- A GRAYA stream carrying a recognized non-identity ZIWS tag. -/
def ziwsGrayaStream : List Nat :=
  [128, 128] ++ (tagStream ziwsEntries ++ ziwsRest)

end Paa

namespace TexConfig

open Paa

/-- The zero SwizzleExpr value (invalid, source A). -/
def zeroExpr : SwizzleExpr :=
  ⟨SwizzleSource.A, false, false, 0, false⟩

/-- The zero ChannelSwizzle value, an identity swizzle. -/
def identSwz : ChannelSwizzle :=
  ⟨zeroExpr, zeroExpr, zeroExpr, zeroExpr⟩

/-- A hint with format Default and an identity swizzle. -/
def defaultHint : TextureHint :=
  ⟨none, none, none, none, none, "", "", "", identSwz, TexFormat.Default, MipmapFilter.Default,
    ErrorMetrics.Default, 0⟩

/-- A 1 by 1 image whose single alpha value is 240. -/
def img240 : Image :=
  ⟨1, 1, [⟨0, 0, 0, 240⟩]⟩

/-- A config with non-zero version, one hint and all four toggles set. -/
def cfgDemo : TexConvertConfig :=
  ⟨[defaultHint], 7, true, true, true, true⟩

/-- The SwizzleExpr for the constant 0. -/
def constZeroExpr : SwizzleExpr :=
  ⟨SwizzleSource.A, true, true, 0, false⟩

/-- The canonical nohq channel swizzle: R is 1-A, G is G, B is B, A is 1-R
(ZIWS payload 05 04 02 03). -/
def nohqSwz : ChannelSwizzle :=
  ⟨⟨SwizzleSource.A, true, false, 0, true⟩, ⟨SwizzleSource.G, true, false, 0, false⟩,
    ⟨SwizzleSource.B, true, false, 0, false⟩, ⟨SwizzleSource.R, true, false, 0, true⟩⟩

/-- A DXT5 hint carrying the nohq swizzle with VirtualSwz unset. -/
def nohqHint : TextureHint :=
  ⟨none, none, none, none, none, "", "", "*_nohq.*", nohqSwz, TexFormat.DXT5,
    MipmapFilter.Default, ErrorMetrics.NormalMap, 0⟩

/-- An empty config with every toggle off. -/
def texCfgPlain : TexConvertConfig :=
  ⟨[], 0, false, false, false, false⟩

/-- The encoder options derived from nohqHint for the alpha-240 image. -/
def c3opts : EncodeOptions :=
  { BCn := some ⟨some (5, 5, 5)⟩, Swizzle := some nohqSwz, GenerateMipmaps := none,
    MipmapFilter := none, MaxMipCount := 0, MinMipSize := 0, Typ := some PaxType.DXT5,
    SwizzleTag := [5, 4, 2, 3], NormalMapSwizzle := false, WriteNohqSwizzleTag := false,
    WriteSwizzleTag := true, SkipSwizzle := false, WriteGALF := false, GALFValue := 0,
    ForceCXAMFull := true, UseLZO := true, ForceLZSS := false, UseSRGB := false }

end TexConfig

namespace Paa

theorem lorShiftAdd (q y k : Nat) (hy : y < 2 ^ k) : (q <<< k) ||| y = q <<< k + y := by
  apply Nat.eq_of_testBit_eq
  intro i
  rw [Nat.testBit_lor, Nat.shiftLeft_eq, Nat.mul_comm, Nat.testBit_mul_pow_two_add _ hy,
    Nat.testBit_mul_pow_two]
  by_cases h : i < k
  · simp [h, Nat.not_le_of_lt h]
  · simp [h, Nat.le_of_not_lt h,
      Nat.testBit_lt_two_pow
        (Nat.lt_of_lt_of_le hy (Nat.pow_le_pow_right (by norm_num) (Nat.le_of_not_lt h)))]

theorem lor_eq_add_of_lt (x y k : Nat) (hx : x % 2 ^ k = 0) (hy : y < 2 ^ k) :
    x ||| y = x + y := by
  have hdvd : 2 ^ k ∣ x := Nat.dvd_of_mod_eq_zero hx
  have hq : (x / 2 ^ k) <<< k = x := by
    rw [Nat.shiftLeft_eq]; exact Nat.div_mul_cancel hdvd
  calc x ||| y = ((x / 2 ^ k) <<< k) ||| y := by rw [hq]
    _ = (x / 2 ^ k) <<< k + y := lorShiftAdd _ _ _ hy
    _ = x + y := by rw [hq]

theorem u16ofLE_eq (b0 b1 : Nat) (h0 : b0 < 256) : u16ofLE b0 b1 = b0 + 256 * b1 := by
  unfold u16ofLE
  rw [Nat.lor_comm, lor_eq_add_of_lt (b1 <<< 8) b0 8]
  · rw [Nat.shiftLeft_eq]; norm_num; omega
  · rw [Nat.shiftLeft_eq]; exact Nat.mul_mod_left b1 (2 ^ 8)
  · norm_num; omega

theorem u32ofLE_eq (b0 b1 b2 b3 : Nat) (h0 : b0 < 256) (h1 : b1 < 256) (h2 : b2 < 256) :
    u32ofLE b0 b1 b2 b3 = b0 + 256 * b1 + 65536 * b2 + 16777216 * b3 := by
  unfold u32ofLE
  have e1 : b0 ||| (b1 <<< 8) = b0 + 256 * b1 := u16ofLE_eq b0 b1 h0
  have e2 : (b0 + 256 * b1) ||| (b2 <<< 16) = b0 + 256 * b1 + 65536 * b2 := by
    rw [Nat.lor_comm, lor_eq_add_of_lt (b2 <<< 16) (b0 + 256 * b1) 16]
    · rw [Nat.shiftLeft_eq]; norm_num; omega
    · rw [Nat.shiftLeft_eq]; exact Nat.mul_mod_left b2 (2 ^ 16)
    · norm_num; omega
  have e3 : (b0 + 256 * b1 + 65536 * b2) ||| (b3 <<< 24)
      = b0 + 256 * b1 + 65536 * b2 + 16777216 * b3 := by
    rw [Nat.lor_comm, lor_eq_add_of_lt (b3 <<< 24) (b0 + 256 * b1 + 65536 * b2) 24]
    · rw [Nat.shiftLeft_eq]; norm_num; omega
    · rw [Nat.shiftLeft_eq]; exact Nat.mul_mod_left b3 (2 ^ 24)
    · norm_num; omega
  rw [e1, e2, e3]

theorem u32ofLE_mod_bytes (v : Nat) :
    u32ofLE (v % 256) ((v >>> 8) % 256) ((v >>> 16) % 256) ((v >>> 24) % 256)
      = v % 4294967296 := by
  rw [u32ofLE_eq _ _ _ _ (Nat.mod_lt _ (by norm_num)) (Nat.mod_lt _ (by norm_num))
    (Nat.mod_lt _ (by norm_num))]
  simp only [Nat.shiftRight_eq_div_pow]
  norm_num
  omega

theorem u16ofLE_mod_bytes (v : Nat) :
    u16ofLE (v % 256) ((v >>> 8) % 256) = v % 65536 := by
  rw [u16ofLE_eq _ _ (Nat.mod_lt _ (by norm_num))]
  simp only [Nat.shiftRight_eq_div_pow]
  norm_num
  omega

theorem getD_set (l : List Nat) (i j v : Nat) :
    (l.set i v).getD j 0 = if i = j ∧ i < l.length then v else l.getD j 0 := by
  simp only [List.getD_eq_getElem?_getD, List.getElem?_set]
  by_cases h1 : i = j
  · subst h1
    by_cases h2 : i < l.length
    · simp [h2]
    · simp [h2, List.getElem?_eq_none (Nat.le_of_not_lt h2)]
  · simp [h1]

theorem putUint32LE_length (buf : List Nat) (pos v : Nat) :
    (putUint32LE buf pos v).length = buf.length := by
  simp [putUint32LE]

theorem getD_putUint32LE (buf : List Nat) (pos v j : Nat) :
    (putUint32LE buf pos v).getD j 0 =
      if j = pos ∧ pos < buf.length then v % 256
      else if j = pos + 1 ∧ pos + 1 < buf.length then (v >>> 8) % 256
      else if j = pos + 2 ∧ pos + 2 < buf.length then (v >>> 16) % 256
      else if j = pos + 3 ∧ pos + 3 < buf.length then (v >>> 24) % 256
      else buf.getD j 0 := by
  unfold putUint32LE
  rw [getD_set, getD_set, getD_set, getD_set]
  simp only [List.length_set]
  split_ifs <;> first | rfl | omega

theorem sffoEntryAt_putUint32LE_self (buf : List Nat) (i v : Nat) (h : 4 * i + 3 < buf.length)
    (hv : v < 4294967296) : sffoEntryAt (putUint32LE buf (4 * i) v) i = v := by
  unfold sffoEntryAt u32At
  rw [getD_putUint32LE, getD_putUint32LE, getD_putUint32LE, getD_putUint32LE]
  have e0 : (4 * i = 4 * i ∧ 4 * i < buf.length) := ⟨rfl, by omega⟩
  rw [if_pos e0, if_pos (by omega : 4 * i + 1 = 4 * i + 1 ∧ 4 * i + 1 < buf.length)]
  rw [if_neg (by omega : ¬(4 * i + 1 = 4 * i ∧ 4 * i < buf.length))]
  rw [if_neg (by omega : ¬(4 * i + 2 = 4 * i ∧ 4 * i < buf.length))]
  rw [if_neg (by omega : ¬(4 * i + 2 = 4 * i + 1 ∧ 4 * i + 1 < buf.length))]
  rw [if_pos (by omega : 4 * i + 2 = 4 * i + 2 ∧ 4 * i + 2 < buf.length)]
  rw [if_neg (by omega : ¬(4 * i + 3 = 4 * i ∧ 4 * i < buf.length))]
  rw [if_neg (by omega : ¬(4 * i + 3 = 4 * i + 1 ∧ 4 * i + 1 < buf.length))]
  rw [if_neg (by omega : ¬(4 * i + 3 = 4 * i + 2 ∧ 4 * i + 2 < buf.length))]
  rw [if_pos (by omega : 4 * i + 3 = 4 * i + 3 ∧ 4 * i + 3 < buf.length)]
  rw [u32ofLE_mod_bytes]
  omega

theorem getD_put32_other (buf : List Nat) (pos v j : Nat) (hj : j < pos ∨ pos + 3 < j) :
    (putUint32LE buf pos v).getD j 0 = buf.getD j 0 := by
  rw [getD_putUint32LE]
  split_ifs <;> first | rfl | omega

theorem sffoEntryAt_putUint32LE_ne (buf : List Nat) (i j v : Nat) (hne : j ≠ i) :
    sffoEntryAt (putUint32LE buf (4 * i) v) j = sffoEntryAt buf j := by
  unfold sffoEntryAt u32At
  have ha := getD_put32_other buf (4 * i) v (4 * j) (by omega)
  have hb := getD_put32_other buf (4 * i) v (4 * j + 1) (by omega)
  have hc := getD_put32_other buf (4 * i) v (4 * j + 2) (by omega)
  have hd := getD_put32_other buf (4 * i) v (4 * j + 3) (by omega)
  rw [ha, hb, hc, hd]

theorem sffoFill_length (mips : List MipBlock) : ∀ buf i off : _,
    (sffoFill buf i off mips).length = buf.length := by
  induction mips with
  | nil => intro buf i off; rfl
  | cons m rest ih =>
    intro buf i off
    unfold sffoFill
    by_cases h : i < 16
    · rw [if_pos h, ih, putUint32LE_length]
    · rw [if_neg h]

theorem sffoEntryAt_sffoFill_lt (mips : List MipBlock) : ∀ buf i off j, j < i →
    sffoEntryAt (sffoFill buf i off mips) j = sffoEntryAt buf j := by
  induction mips with
  | nil => intro buf i off j _; rfl
  | cons m rest ih =>
    intro buf i off j hj
    unfold sffoFill
    by_cases h : i < 16
    · rw [if_pos h, ih _ _ _ _ (by omega), sffoEntryAt_putUint32LE_ne _ _ _ _ (by omega)]
    · rw [if_neg h]

theorem sffoEntryAt_sffoFill (mips : List MipBlock) : ∀ buf i off j, buf.length = 64 →
    i ≤ j → j < 16 → j - i < mips.length →
    sffoEntryAt (sffoFill buf i off mips) j
      = (off + chainCost (mips.take (j - i))) % 4294967296 := by
  induction mips with
  | nil => intro buf i off j _ _ _ hcontra; simp at hcontra
  | cons m rest ih =>
    intro buf i off j hlen hij hj16 hlt
    simp only [List.length_cons] at hlt
    have hi16 : i < 16 := Nat.lt_of_le_of_lt hij hj16
    unfold sffoFill
    rw [if_pos hi16]
    by_cases hcase : j = i
    · subst hcase
      rw [sffoEntryAt_sffoFill_lt rest _ _ _ _ (Nat.lt_succ_self j)]
      rw [sffoEntryAt_putUint32LE_self _ _ _ (by omega) (Nat.mod_lt _ (by norm_num))]
      simp [chainCost, Nat.sub_self]
    · have hij' : i + 1 ≤ j := by omega
      have htake : (m :: rest).take (j - i) = m :: rest.take (j - (i + 1)) := by
        have : j - i = (j - (i + 1)) + 1 := by omega
        rw [this, List.take_succ_cons]
      rw [ih _ _ _ _ (by rw [putUint32LE_length]; exact hlen) hij' hj16 (by omega)]
      rw [htake]
      simp only [chainCost, List.map_cons, List.sum_cons]
      congr 1
      omega

theorem mapGet_mapSet_self (m : List (List Nat × List Nat)) (k v : List Nat) :
    mapGet (mapSet m k v) k = some v := by
  induction m with
  | nil => simp [mapSet, mapGet]
  | cons p rest ih =>
    by_cases h : p.1 = k
    · simp [mapSet, mapGet, h]
    · simp [mapSet, mapGet, h, ih]

theorem mapGet_mapSet_ne (m : List (List Nat × List Nat)) (k k' v : List Nat) (h : k' ≠ k) :
    mapGet (mapSet m k v) k' = mapGet m k' := by
  induction m with
  | nil =>
    simp only [mapSet, mapGet]
    rw [if_neg (fun hc => h hc.symm)]
  | cons p rest ih =>
    simp only [mapSet]
    by_cases hp : p.1 = k
    · rw [if_pos hp]
      simp only [mapGet]
      rw [if_neg (fun hc => h hc.symm), if_neg (by rw [hp]; exact fun hc => h hc.symm)]
    · rw [if_neg hp]
      simp only [mapGet]
      by_cases hp' : p.1 = k'
      · rw [if_pos hp', if_pos hp']
      · rw [if_neg hp', if_neg hp', ih]

theorem mapGet_tagsOf (entries : List (List Nat × List Nat)) :
    ∀ acc k, mapGet (tagsOf acc entries) k
      = match lastPayload entries k with
        | some v => some v
        | none => mapGet acc k := by
  induction entries with
  | nil => intro acc k; simp [tagsOf, lastPayload]
  | cons e rest ih =>
    intro acc k
    have hfold : tagsOf acc (e :: rest) = tagsOf (mapSet acc e.1 e.2) rest := rfl
    rw [hfold, ih]
    have hlast : lastPayload (e :: rest) k
        = match lastPayload rest k with
          | some v => some v
          | none => if e.1 = k then some e.2 else none := by
      unfold lastPayload
      simp only [List.reverse_cons, List.find?_append]
      cases hfind : List.find? (fun x => decide (x.1 = k)) rest.reverse with
      | none =>
        by_cases he : e.1 = k <;> simp [List.find?, Option.or, he]
      | some v => simp [Option.or]
    rw [hlast]
    cases hrest : lastPayload rest k with
    | some v => simp
    | none =>
      by_cases he : e.1 = k
      · subst he; simp [mapGet_mapSet_self]
      · simp [he, mapGet_mapSet_ne acc e.1 k e.2 (fun hc => he hc.symm)]

theorem readGGATTagsGo_serialized (entries : List (List Nat × List Nat)) :
    ∀ acc rest, (∀ e ∈ entries, (e : List Nat × List Nat).1.length = 4) →
    (∀ e ∈ entries, (e : List Nat × List Nat).2.length < 4294967296) →
    4 ≤ rest.length → rest.take 4 ≠ ggatSig →
    readGGATTagsGo acc (tagStream entries ++ rest)
      = Except.ok (tagsOf acc entries, rest.drop 4) := by
  induction entries with
  | nil =>
    intro acc rest _ _ h4 hsig
    rw [show tagStream [] ++ rest = rest by simp [tagStream], readGGATTagsGo]
    rw [dif_neg (by omega), dif_pos hsig]
    simp [tagsOf]
  | cons e entries ih =>
    intro acc rest hnames hpays h4 hsig
    have he1 : e.1.length = 4 := hnames e (List.mem_cons_self e entries)
    have hplen : e.2.length < 4294967296 := hpays e (List.mem_cons_self e entries)
    have hstream : tagStream (e :: entries) ++ rest
        = ggatSig ++ (e.1 ++ (u32Bytes e.2.length ++ (e.2 ++ (tagStream entries ++ rest)))) := by
      simp [tagStream, tagB, List.append_assoc]
    rw [hstream]
    have hTlen : 4 ≤ (tagStream entries ++ rest).length := by
      simp only [List.length_append]; omega
    have hslen : (ggatSig ++ (e.1 ++ (u32Bytes e.2.length ++
          (e.2 ++ (tagStream entries ++ rest))))).length
        = 12 + e.2.length + (tagStream entries ++ rest).length := by
      simp [ggatSig, u32Bytes, he1]
      omega
    have hd4 : (ggatSig ++ (e.1 ++ (u32Bytes e.2.length ++
          (e.2 ++ (tagStream entries ++ rest))))).drop 4
        = e.1 ++ (u32Bytes e.2.length ++ (e.2 ++ (tagStream entries ++ rest))) :=
      List.drop_left' (by simp [ggatSig])
    have hd8 : (ggatSig ++ (e.1 ++ (u32Bytes e.2.length ++
          (e.2 ++ (tagStream entries ++ rest))))).drop 8
        = u32Bytes e.2.length ++ (e.2 ++ (tagStream entries ++ rest)) := by
      rw [show (8 : Nat) = 4 + 4 from rfl, ← List.drop_drop, hd4]
      exact List.drop_left' he1
    have hd12 : (ggatSig ++ (e.1 ++ (u32Bytes e.2.length ++
          (e.2 ++ (tagStream entries ++ rest))))).drop 12
        = e.2 ++ (tagStream entries ++ rest) := by
      rw [show (12 : Nat) = 8 + 4 from rfl, ← List.drop_drop, hd8]
      exact List.drop_left' (by simp [u32Bytes])
    have hsize : u32ofLE
        (((ggatSig ++ (e.1 ++ (u32Bytes e.2.length ++
          (e.2 ++ (tagStream entries ++ rest))))).drop 8).getD 0 0)
        (((ggatSig ++ (e.1 ++ (u32Bytes e.2.length ++
          (e.2 ++ (tagStream entries ++ rest))))).drop 8).getD 1 0)
        (((ggatSig ++ (e.1 ++ (u32Bytes e.2.length ++
          (e.2 ++ (tagStream entries ++ rest))))).drop 8).getD 2 0)
        (((ggatSig ++ (e.1 ++ (u32Bytes e.2.length ++
          (e.2 ++ (tagStream entries ++ rest))))).drop 8).getD 3 0) = e.2.length := by
      rw [hd8]
      rw [List.getD_append _ _ _ 0 (by simp [u32Bytes]),
        List.getD_append _ _ _ 1 (by simp [u32Bytes]),
        List.getD_append _ _ _ 2 (by simp [u32Bytes]),
        List.getD_append _ _ _ 3 (by simp [u32Bytes])]
      have : ∀ v : Nat, (u32Bytes v).getD 0 0 = v % 256 ∧ (u32Bytes v).getD 1 0 = (v >>> 8) % 256
          ∧ (u32Bytes v).getD 2 0 = (v >>> 16) % 256 ∧ (u32Bytes v).getD 3 0 = (v >>> 24) % 256 :=
        fun v => ⟨rfl, rfl, rfl, rfl⟩
      rw [(this _).1, (this _).2.1, (this _).2.2.1, (this _).2.2.2, u32ofLE_mod_bytes]
      omega
    rw [readGGATTagsGo]
    rw [dif_neg (by rw [hslen]; omega)]
    rw [dif_neg (by
      rw [List.take_left' (by simp [ggatSig] : ggatSig.length = 4)]
      exact not_not_intro rfl)]
    rw [dif_neg (by rw [hslen]; omega)]
    simp only [hsize, hd4, hd12]
    rw [dif_neg (by rw [hslen]; simp only [List.length_append]; omega)]
    rw [List.take_left' he1, List.take_left' rfl]
    have hdrest : (ggatSig ++ (e.1 ++ (u32Bytes e.2.length ++
          (e.2 ++ (tagStream entries ++ rest))))).drop (12 + e.2.length)
        = tagStream entries ++ rest := by
      rw [← List.drop_drop, hd12]
      exact List.drop_left' rfl
    rw [hdrest]
    rw [ih (mapSet acc e.1 e.2) rest (fun x hx => hnames x (List.mem_cons_of_mem e hx))
      (fun x hx => hpays x (List.mem_cons_of_mem e hx)) h4 hsig]
    rfl

theorem readGGATTags_serialized (entries : List (List Nat × List Nat)) (rest : List Nat)
    (hnames : ∀ e ∈ entries, (e : List Nat × List Nat).1.length = 4)
    (hpays : ∀ e ∈ entries, (e : List Nat × List Nat).2.length < 4294967296)
    (h4 : 4 ≤ rest.length) (hsig : rest.take 4 ≠ ggatSig) :
    readGGATTags (tagStream entries ++ rest) = Except.ok (tagsOf [] entries, rest.drop 4) :=
  readGGATTagsGo_serialized entries [] rest hnames hpays h4 hsig

/-- C1.  The claim computes the header size as 2 + 16 + 16 + optional 16s +
16 for the SFFO tag + 64 payload + 2, that is 116 bytes with neither GALF
nor ZIWS; the writer actually reserves 76 bytes for the whole SFFO tag
(12-byte tag header plus 64-byte payload), so a successful encode of one
GRAYA mip with no optional tags stores 112, not 116, as its first non-zero
SFFO entry (read back here through the metadata decoder). -/
theorem c1_counterexample :
    ((encodePAACore PaxType.GRAYA [0, 0, 0, 0] [255, 255, 255, 255] false 1 false []
          [⟨1, 1, [7, 7], false⟩]).bind DecodeMetadata).map
        (fun md => md.MipHeaders.map MipHeader.Offset) = Except.ok [112] ∧ (112 : Nat) ≠ 116 := by
  have hstream : encodePAACore PaxType.GRAYA [0, 0, 0, 0] [255, 255, 255, 255] false 1 false []
      [⟨1, 1, [7, 7], false⟩]
      = Except.ok (ptBytes PaxType.GRAYA ++ (tagStream c1Entries ++ c1Rest)) := by rfl
  have htags := readGGATTags_serialized c1Entries c1Rest (by decide) (by decide) (by decide)
    (by decide)
  have hpt : readPaxTypeE (ptBytes PaxType.GRAYA ++ (tagStream c1Entries ++ c1Rest))
      = Except.ok PaxType.GRAYA := by rfl
  have hdrop : (ptBytes PaxType.GRAYA ++ (tagStream c1Entries ++ c1Rest)).drop 2
      = tagStream c1Entries ++ c1Rest := List.drop_left' rfl
  constructor
  · rw [hstream]
    simp only [Except.bind, DecodeMetadata, hpt, hdrop, htags]
    rfl
  · decide

/-- C1, amended.  For every mip list and optional-tag choice, SFFO entry i
(for i below 16 and below the mip count) equals the base offset plus the
cumulative 7 + payload-length cost of the preceding mips, as a uint32; the
base offset is 112 (header 2, CGVA 16, CXAM 16, SFFO tag header 12, SFFO
payload 64, sentinel 2) plus 16 for each of GALF and ZIWS when emitted. -/
theorem c1_sffo_offsets_amended (g z : Bool) (mips : List MipBlock) (i : Nat)
    (h1 : i < mips.length) (h2 : i < 16) :
    sffoEntryAt (sffoPayload g z mips) i
        = (paaBaseOffset g z + chainCost (mips.take i)) % 4294967296
      ∧ paaBaseOffset g z = 112 + (if g then 16 else 0) + (if z then 16 else 0) := by
  constructor
  · have h := sffoEntryAt_sffoFill mips (List.replicate 64 0) 0 (paaBaseOffset g z) i
      (by simp) (Nat.zero_le i) h2 (by omega)
    simpa [sffoPayload] using h
  · unfold paaBaseOffset
    cases g <;> cases z <;> norm_num

/-- C2.  The claim says at most 16 mip blocks are written and that the
non-zero SFFO entry count equals the emitted block count.  The mip-write
loop of EncodeWithOptions has no 16-entry cap: the truncation loop passes
a 17-level chain through (a 65535 by 1 non-DXT image halves to 17
levels), the encode succeeds with all 17 blocks in the stream (the
17th block sits at offset 256, beyond the last SFFO-referenced one),
while the SFFO table holds only 16 non-zero entries. -/
theorem c2_excess_mips_emitted :
    (collectMipImages chain17 0 1).length = 17 ∧
      (encodePAACore PaxType.GRAYA [7, 7, 7, 7] [255, 255, 255, 255] false 1 false [] mips17).map
          (fun bs => (bs.length, (bs.drop 256).take 9))
        = Except.ok (271, [1, 0, 1, 0, 2, 0, 0, 7, 7]) ∧
      (sffoCollectList (sffoPayload false false mips17)).length = 16 := by
  refine ⟨by decide, by rfl, by decide⟩

/-- C5.  The spec table maps selector byte 0x09 to constant 0, and the
package serializer ziwsValue indeed emits 0x09 for the constant-0
expression; but the generic decode rule of applySwizzlePayload tests only
bit 3, so selector 0x09 produces the constant 255 for every pixel (shown
here on the R output channel of the recognized non-nohq, non-ADSHQ tag
00 09 02 03). -/
theorem c5_selector_09_yields_255 (img : Image) :
    applySwizzlePayload img [0x00, 0x09, 0x02, 0x03]
        = ⟨img.w, img.h, img.pix.map (fun p => ⟨255, p.g, p.b, p.a⟩)⟩ ∧
      (TexConfig.ziwsValue TexConfig.constZeroExpr TexConfig.SwizzleSource.R).1 = 0x09 := by
  constructor
  · unfold applySwizzlePayload
    congr 1
  · rfl

/-- C1 witness: the amended offset formula evaluated for a one-mip GRAYA
layout with no optional tags gives 112. -/
theorem c1_sffo_offsets_amended_witness :
    (0 < ([⟨1, 1, [7, 7], false⟩] : List MipBlock).length ∧ 0 < 16) ∧
      (sffoEntryAt (sffoPayload false false [⟨1, 1, [7, 7], false⟩]) 0
          = (paaBaseOffset false false
              + chainCost (([⟨1, 1, [7, 7], false⟩] : List MipBlock).take 0)) % 4294967296
        ∧ paaBaseOffset false false
            = 112 + (if false then 16 else 0) + (if false then 16 else 0)) :=
  ⟨⟨by decide, by decide⟩,
    c1_sffo_offsets_amended false false [⟨1, 1, [7, 7], false⟩] 0 (by decide) (by decide)⟩

theorem and_two_pow_15_eq_zero (w : Nat) (h : w < 32768) : w &&& 32768 = 0 := by
  have h1 := Nat.and_two_pow w 15
  norm_num at h1
  rw [h1, Nat.testBit_lt_two_pow (by norm_num; omega)]
  rfl

theorem u24_mod_bytes (v : Nat) :
    (v % 256) ||| (((v >>> 8) % 256) <<< 8) ||| (((v >>> 16) % 256) <<< 16) = v % 16777216 := by
  have e1 : (v % 256) ||| (((v >>> 8) % 256) <<< 8) = v % 256 + 256 * ((v >>> 8) % 256) :=
    u16ofLE_eq _ _ (Nat.mod_lt _ (by norm_num))
  rw [e1, Nat.lor_comm,
    lor_eq_add_of_lt (((v >>> 16) % 256) <<< 16) (v % 256 + 256 * ((v >>> 8) % 256)) 16
      (by rw [Nat.shiftLeft_eq]; exact Nat.mul_mod_left _ _) (by norm_num; omega)]
  simp only [Nat.shiftLeft_eq, Nat.shiftRight_eq_div_pow]
  norm_num
  omega

theorem expectedMipSize_nonneg (pt : PaxType) (w h : Nat) : 0 ≤ expectedMipSize pt w h := by
  unfold expectedMipSize
  by_cases h0 : w = 0 ∨ h = 0
  · rw [if_pos h0]
  · rw [if_neg h0]
    cases pt <;> positivity

/-- C7 counterexample: a DXT1 block whose width and height fields are both
zero but whose stored length field is 5 (differing from the expected raw
size, with the width top bit clear) does not fail with InsufficientData;
readMipMap returns the dummy-mip success before ever reading the length. -/
theorem c7_counterexample :
    readMipMap cStub PaxType.DXT1 [0, 0, 0, 0, 5, 0, 0, 1, 2, 3, 4, 5]
        = Except.ok (none, [5, 0, 0, 1, 2, 3, 4, 5]) ∧
      (Except.ok (none, [5, 0, 0, 1, 2, 3, 4, 5]) : Except Err (Option MipMap × List Nat))
        ≠ Except.error Err.InsufficientData := by
  constructor
  · rfl
  · simp

/-- C7, amended.  When reading one mip block of a DXT format whose width
and height are not both zero, if the stored payload length equals the
expected raw size the payload is taken as raw; if the stored length
differs and the width field top bit is clear, reading fails with
InsufficientData.  A block with width 0 and height 0 is instead the dummy
terminator and succeeds with no mip regardless of the length field. -/
theorem c7_readMipMap_amended (c : Codecs) (pt : PaxType) (w h size : Nat)
    (payload rest : List Nat) (hdxt : isDXT pt = true) (hw : w < 32768) (hh : h < 65536)
    (hlen : payload.length = size) (hsz : size < 16777216) (hnd : ¬(w = 0 ∧ h = 0)) :
    readMipMap c pt (u16Bytes w ++ u16Bytes h ++
        [size % 256, (size >>> 8) % 256, (size >>> 16) % 256] ++ payload ++ rest)
      = if (size : Int) = expectedMipSize pt w h
        then Except.ok (some ⟨payload, pt, w, h⟩, rest)
        else Except.error Err.InsufficientData := by
  have hs : u16Bytes w ++ u16Bytes h ++
        [size % 256, (size >>> 8) % 256, (size >>> 16) % 256] ++ payload ++ rest
      = (w % 256) :: ((w >>> 8) % 256) :: (h % 256) :: ((h >>> 8) % 256) :: (size % 256) ::
        ((size >>> 8) % 256) :: ((size >>> 16) % 256) :: (payload ++ rest) := by
    simp [u16Bytes]
  have hwp : u16ofLE (w % 256) ((w >>> 8) % 256) = w := by
    rw [u16ofLE_mod_bytes]; omega
  have hhp : u16ofLE (h % 256) ((h >>> 8) % 256) = h := by
    rw [u16ofLE_mod_bytes]; omega
  have hsp : (size % 256) ||| (((size >>> 8) % 256) <<< 8) ||| (((size >>> 16) % 256) <<< 16)
      = size := by
    rw [u24_mod_bytes]; omega
  have hflag : w &&& 32768 = 0 := and_two_pow_15_eq_zero w hw
  rw [hs]
  unfold readMipMap
  simp only [List.getD_cons_zero, List.getD_cons_succ, hwp, hhp, hsp, hflag]
  rw [if_neg (by simp)]
  rw [if_neg hnd]
  rw [if_neg (by simp)]
  rw [if_neg (by simp [hlen]; omega)]
  have hlzo : ¬(isDXT pt = true ∧ ¬(0 : Nat) = 0) := by simp
  rw [if_neg hlzo]
  rw [if_neg (not_lt.mpr (expectedMipSize_nonneg pt w h))]
  have hdrop7 : List.drop 7 ((w % 256) :: ((w >>> 8) % 256) :: (h % 256) :: ((h >>> 8) % 256) ::
      (size % 256) :: ((size >>> 8) % 256) :: ((size >>> 16) % 256) :: (payload ++ rest))
      = payload ++ rest := rfl
  have hdropR : List.drop (7 + size) ((w % 256) :: ((w >>> 8) % 256) :: (h % 256) ::
      ((h >>> 8) % 256) :: (size % 256) :: ((size >>> 8) % 256) :: ((size >>> 16) % 256) ::
      (payload ++ rest)) = rest := by
    rw [← List.drop_drop, hdrop7]
    exact List.drop_left' hlen
  rw [hdrop7, List.take_left' hlen, hdropR]
  by_cases hexp : (size : Int) = expectedMipSize pt w h
  · rw [if_pos hexp, if_pos hexp]
  · rw [if_neg hexp, if_neg hexp, if_pos hdxt, if_pos hlzo]

end Paa

namespace TexConfig

open Paa

theorem scanAlpha_foldl (pix : List Pixel) : ∀ st : AlphaStats,
    pix.foldl scanAlphaStep st
      = ⟨st.hasAlpha || pix.any (fun p => decide (p.a < 255)),
         st.allHigh && pix.all (fun p => !decide (p.a < 240)),
         st.isBinary && pix.all (fun p => decide (p.a = 0) || decide (p.a = 255))⟩ := by
  induction pix with
  | nil => intro st; cases st; simp
  | cons p rest ih =>
    intro st
    rw [List.foldl_cons, ih]
    simp [scanAlphaStep, Bool.or_assoc, Bool.and_assoc]

/-- C4 counterexample: an image whose single alpha value is 240 is neither
all-opaque nor binary, yet the Default format selection returns DXT1
because every alpha is at least 0xF0. -/
theorem c4_counterexample :
    selectPaxType (scanAlpha img240) defaultHint = Except.ok PaxType.DXT1 ∧
      ¬((∀ p ∈ img240.pix, p.a = 255) ∨ (∀ p ∈ img240.pix, p.a = 0 ∨ p.a = 255)) := by
  constructor
  · rfl
  · decide

/-- C4, amended.  For every image and every hint whose Format is Default,
format selection returns DXT1 if and only if every alpha value is at
least 0xF0 (the allHigh statistic) or every alpha value is 0 or 255
(binary), and returns DXT5 otherwise; all-opaque images fall under the
first disjunct. -/
theorem c4_selectPaxType_default_amended (img : Image) (hint : TextureHint)
    (hfmt : hint.Format = TexFormat.Default) :
    selectPaxType (scanAlpha img) hint
      = if (∀ p ∈ img.pix, 240 ≤ p.a) ∨ (∀ p ∈ img.pix, p.a = 0 ∨ p.a = 255)
        then Except.ok PaxType.DXT1 else Except.ok PaxType.DXT5 := by
  unfold scanAlpha
  rw [scanAlpha_foldl]
  simp only [selectPaxType, hfmt]
  by_cases hcond : (∀ p ∈ img.pix, 240 ≤ p.a) ∨ (∀ p ∈ img.pix, p.a = 0 ∨ p.a = 255)
  · rw [if_pos hcond]
    rcases hcond with hhigh | hbin
    · have hall : img.pix.all (fun p => !decide (p.a < 240)) = true := by
        simp only [List.all_eq_true]
        intro p hp
        simp [Nat.not_lt_of_le (hhigh p hp)]
      by_cases hha : img.pix.any (fun p => decide (p.a < 255)) = true
      · simp [hall, hha]
      · simp [hall, hha]
    · have hall : img.pix.all (fun p => decide (p.a = 0) || decide (p.a = 255)) = true := by
        simp only [List.all_eq_true]
        intro p hp
        rcases hbin p hp with h0 | h255
        · simp [h0]
        · simp [h255]
      by_cases hha : img.pix.any (fun p => decide (p.a < 255)) = true <;> simp [hall, hha]
  · rw [if_neg hcond]
    push_neg at hcond
    obtain ⟨h1, h2⟩ := hcond
    obtain ⟨p1, hp1, hlt1⟩ := h1
    obtain ⟨p2, hp2, hne⟩ := h2
    have hhigh : img.pix.all (fun p => !decide (p.a < 240)) = false := by
      rw [Bool.eq_false_iff]
      intro hall
      rw [List.all_eq_true] at hall
      have := hall p1 hp1
      simp [hlt1] at this
    have hbin : img.pix.all (fun p => decide (p.a = 0) || decide (p.a = 255)) = false := by
      rw [Bool.eq_false_iff]
      intro hall
      rw [List.all_eq_true] at hall
      have := hall p2 hp2
      simp [hne.1, hne.2] at this
    have hany : img.pix.any (fun p => decide (p.a < 255)) = true := by
      rw [List.any_eq_true]
      refine ⟨p1, hp1, ?_⟩
      simp only [decide_eq_true_eq]
      omega
    simp [hhigh, hbin, hany]

/-- C4 witness: the amended selection rule evaluated at the alpha-240 image
and the Default-format hint. -/
theorem c4_selectPaxType_default_amended_witness :
    defaultHint.Format = TexFormat.Default ∧
      selectPaxType (scanAlpha img240) defaultHint
        = if (∀ p ∈ img240.pix, 240 ≤ p.a) ∨ (∀ p ∈ img240.pix, p.a = 0 ∨ p.a = 255)
          then Except.ok PaxType.DXT1 else Except.ok PaxType.DXT5 :=
  ⟨rfl, c4_selectPaxType_default_amended img240 defaultHint rfl⟩

/-- C6.  The claim says the set-then-get round trip of the process-wide
default config preserves every field.  Clone copies only ConvertVersion
and Hints (its struct literal omits the four global toggles, which
therefore reset to false), so a config with any toggle set is not
preserved: shown on a config with all four toggles true, whose version
and hints survive but whose DisableLZO comes back false. -/
theorem c6_default_roundtrip_drops_toggles :
    DefaultTexConvertConfig (SetDefaultTexConvertConfig cfgDemo) ≠ cfgDemo ∧
      (DefaultTexConvertConfig (SetDefaultTexConvertConfig cfgDemo)).ConvertVersion
          = cfgDemo.ConvertVersion ∧
      (DefaultTexConvertConfig (SetDefaultTexConvertConfig cfgDemo)).Hints = cfgDemo.Hints ∧
      (DefaultTexConvertConfig (SetDefaultTexConvertConfig cfgDemo)).ApplyDefaultErrorMetrics
          = false ∧
      (DefaultTexConvertConfig (SetDefaultTexConvertConfig cfgDemo)).UseSRGBFromDynRange = false ∧
      (DefaultTexConvertConfig (SetDefaultTexConvertConfig cfgDemo)).DisableAutoReduce = false ∧
      (DefaultTexConvertConfig (SetDefaultTexConvertConfig cfgDemo)).DisableLZO = false ∧
      cfgDemo.DisableLZO = true := by
  refine ⟨?_, rfl, rfl, rfl, rfl, rfl, rfl, rfl⟩
  intro h
  have hd : (DefaultTexConvertConfig (SetDefaultTexConvertConfig cfgDemo)).DisableLZO
      = cfgDemo.DisableLZO := by rw [h]
  simp [DefaultTexConvertConfig, SetDefaultTexConvertConfig, Clone, cfgDemo] at hd

theorem ziwsValue_ok (e : SwizzleExpr) (d : SwizzleSource) : (ziwsValue e d).2 = true := by
  unfold ziwsValue ziwsSourceValue
  by_cases hv : e.Valid
  · by_cases hc : e.IsConst
    · by_cases h0 : e.ConstValue = 0 <;> simp [hv, hc, h0]
    · cases e.Source <;> by_cases hi : e.Invert <;> simp [hv, hc, hi]
  · cases d <;> simp [hv]

theorem ZIWSTag_nonidentity (s : ChannelSwizzle) (h : IsIdentity s = false) :
    ZIWSTag s = Except.ok (some [(ziwsValue s.A SwizzleSource.A).1,
      (ziwsValue s.R SwizzleSource.R).1, (ziwsValue s.G SwizzleSource.G).1,
      (ziwsValue s.B SwizzleSource.B).1]) := by
  unfold ZIWSTag
  rw [if_neg (by simp [h])]
  simp [ziwsValue_ok]

/-- C3 counterexample: a GRAYA file carrying the recognized non-identity
ZIWS tag 01 00 03 02 decodes to its raw first mip with no swizzle applied
(the tag is retained in the tag map, and applying the generic rule would
have changed the pixel), because applySwizzleTag requires the pixel
format to be DXT5. -/
theorem c3_counterexample :
    Decode cStub ziwsGrayaStream = Except.ok ⟨1, 1, [⟨5, 5, 5, 9⟩]⟩ ∧
      mapGet (tagsOf [] ziwsEntries) ziwsName = some [1, 0, 3, 2] ∧
      applySwizzlePayload ⟨1, 1, [⟨5, 5, 5, 9⟩]⟩ [1, 0, 3, 2] ≠ ⟨1, 1, [⟨5, 5, 5, 9⟩]⟩ := by
  have hstream : ziwsGrayaStream = ptBytes PaxType.GRAYA ++ (tagStream ziwsEntries ++ ziwsRest) :=
    rfl
  have htags := readGGATTags_serialized ziwsEntries ziwsRest (by decide) (by decide) (by decide)
    (by decide)
  have hpt : readPaxTypeE (ptBytes PaxType.GRAYA ++ (tagStream ziwsEntries ++ ziwsRest))
      = Except.ok PaxType.GRAYA := by rfl
  have hdrop : (ptBytes PaxType.GRAYA ++ (tagStream ziwsEntries ++ ziwsRest)).drop 2
      = tagStream ziwsEntries ++ ziwsRest := List.drop_left' rfl
  refine ⟨?_, by decide, by decide⟩
  rw [hstream]
  simp only [Decode, DecodePAA, hpt, hdrop, htags]
  rfl

/-- C3, amended.  Decode applies the ZIWS swizzle to the first mip only
when the pixel format is DXT5: for any other format the image is returned
unchanged even when a recognized tag is present; for DXT5 a recognized
4-byte tag that is neither the nohq nor the ADSHQ payload dispatches to
the generic rule; and a hint with a non-identity swizzle and VirtualSwz
not false always derives options with WriteSwizzleTag set, so the emitted
file contains a ZIWS tag. -/
theorem c3_swizzle_amended :
    (∀ (unswz : Image → Image) (p : PAA) (img : Image), p.Typ ≠ PaxType.DXT5 →
        applySwizzleTag unswz p img = img) ∧
      (∀ (unswz : Image → Image) (p : PAA) (img : Image) (tag : List Nat),
        p.Typ = PaxType.DXT5 → mapGet p.Taggs ziwsName = some tag → tag.length = 4 →
        tag ≠ swizzleDXT5NM → tag ≠ adshqTag →
        applySwizzleTag unswz p img = applySwizzlePayload img tag) ∧
      (∀ (img : Image) (hint : TextureHint) (cfg : TexConvertConfig) (skip : Bool)
        (opts : EncodeOptions), IsIdentity hint.Swizzle = false →
        hint.VirtualSwz ≠ some false →
        EncodeOptionsFromHint img hint cfg skip = Except.ok opts →
        opts.WriteSwizzleTag = true) := by
  refine ⟨?_, ?_, ?_⟩
  · intro unswz p img hne
    unfold applySwizzleTag
    cases hget : mapGet p.Taggs ziwsName with
    | none => rfl
    | some tag => exact if_pos (Or.inr hne)
  · intro unswz p img tag h5 hget hlen hn ha
    simp only [applySwizzleTag, hget]
    rw [if_neg (by simp [hlen, h5]), if_neg hn, if_neg ha]
  · intro img hint cfg skip opts hni hvs hok
    unfold EncodeOptionsFromHint at hok
    by_cases htv : isTexViewUnsupported hint = true
    · simp [htv] at hok
    · rw [Bool.not_eq_true] at htv
      rw [if_neg (by simp [htv])] at hok
      by_cases hdx : hint.EnableDXT = some false ∧
          ¬(hint.Format = TexFormat.ARGB4444 ∨ hint.Format = TexFormat.ARGB1555 ∨
            hint.Format = TexFormat.AI88 ∨ hint.Format = TexFormat.P8)
      · rw [if_pos hdx] at hok
        cases hok
      · rw [if_neg hdx] at hok
        cases hsel : selectPaxType (scanAlpha img) hint with
        | error e => rw [hsel] at hok; cases hok
        | ok paxType =>
          rw [hsel] at hok
          have hvsor : hint.VirtualSwz = none ∨ hint.VirtualSwz = some true := by
            cases hv : hint.VirtualSwz with
            | none => exact Or.inl rfl
            | some b =>
              cases b
              · exact absurd hv hvs
              · exact Or.inr rfl
          have hswz : ∀ o : EncodeOptions, ∃ o1 : EncodeOptions,
              swizzleOptions hint skip o = Except.ok o1 ∧ o1.WriteSwizzleTag = true := by
            intro o
            unfold swizzleOptions
            rw [if_pos (by simp [hni]), if_pos hvsor, ZIWSTag_nonidentity _ hni]
            cases skip with
            | false => exact ⟨_, rfl, rfl⟩
            | true => exact ⟨_, rfl, rfl⟩
          obtain ⟨o1, hswzeq, hwst⟩ := hswz (baseOptions paxType cfg)
          simp only [] at hok
          rw [hswzeq] at hok
          have hpost : (postSwizzleOptions (scanAlpha img) hint cfg o1).WriteSwizzleTag
              = o1.WriteSwizzleTag := by
            unfold postSwizzleOptions
            cases hint.ErrorMetrics <;> split_ifs <;> simp [setRGBWeights]
          rw [← Except.ok.inj hok, hpost, hwst]

/-- C3 witness: the three amended statements evaluated at concrete inputs:
a GRAYA file with a ZIWS tag is returned unchanged; a DXT5 file with the
tag 01 00 03 02 dispatches to the generic rule; the nohq hint derives
options with WriteSwizzleTag set. -/
theorem c3_swizzle_amended_witness :
    ((⟨[], [], PaxType.GRAYA⟩ : PAA).Typ ≠ PaxType.DXT5 ∧
        applySwizzleTag id ⟨[], [], PaxType.GRAYA⟩ ⟨1, 1, [⟨5, 5, 5, 9⟩]⟩
          = ⟨1, 1, [⟨5, 5, 5, 9⟩]⟩) ∧
      (applySwizzleTag id ⟨[(ziwsName, [1, 0, 3, 2])], [], PaxType.DXT5⟩ ⟨1, 1, [⟨5, 5, 5, 9⟩]⟩
          = applySwizzlePayload ⟨1, 1, [⟨5, 5, 5, 9⟩]⟩ [1, 0, 3, 2]) ∧
      (IsIdentity nohqHint.Swizzle = false ∧ nohqHint.VirtualSwz ≠ some false ∧
        EncodeOptionsFromHint img240 nohqHint texCfgPlain false = Except.ok c3opts ∧
        c3opts.WriteSwizzleTag = true) :=
  ⟨⟨by decide,
      c3_swizzle_amended.1 id ⟨[], [], PaxType.GRAYA⟩ ⟨1, 1, [⟨5, 5, 5, 9⟩]⟩ (by decide)⟩,
    c3_swizzle_amended.2.1 id ⟨[(ziwsName, [1, 0, 3, 2])], [], PaxType.DXT5⟩
      ⟨1, 1, [⟨5, 5, 5, 9⟩]⟩ [1, 0, 3, 2] rfl (by decide) (by decide) (by decide) (by decide),
    ⟨by decide, by decide, by decide,
      c3_swizzle_amended.2.2 img240 nohqHint texCfgPlain false c3opts (by decide) (by decide)
        (by decide)⟩⟩

end TexConfig

namespace Paa

/-- C7 witness: the amended block-read rule evaluated on a raw 4 by 4 DXT1
block whose stored length 8 equals the expected size. -/
theorem c7_readMipMap_amended_witness :
    (isDXT PaxType.DXT1 = true ∧ (4 : Nat) < 32768 ∧ (4 : Nat) < 65536 ∧
        ([1, 2, 3, 4, 5, 6, 7, 8] : List Nat).length = 8 ∧ (8 : Nat) < 16777216 ∧
        ¬((4 : Nat) = 0 ∧ (4 : Nat) = 0)) ∧
      readMipMap cStub PaxType.DXT1 (u16Bytes 4 ++ u16Bytes 4 ++
          [8 % 256, (8 >>> 8) % 256, (8 >>> 16) % 256] ++ [1, 2, 3, 4, 5, 6, 7, 8] ++ [])
        = if ((8 : Nat) : Int) = expectedMipSize PaxType.DXT1 4 4
          then Except.ok (some ⟨[1, 2, 3, 4, 5, 6, 7, 8], PaxType.DXT1, 4, 4⟩, [])
          else Except.error Err.InsufficientData :=
  ⟨⟨rfl, by decide, by decide, rfl, by decide, by decide⟩,
    c7_readMipMap_amended cStub PaxType.DXT1 4 4 8 [1, 2, 3, 4, 5, 6, 7, 8] [] rfl (by decide)
      (by decide) rfl (by decide) (by decide)⟩

theorem and_15_eq_mod (x : Nat) : x &&& 15 = x % 16 := by
  have h := Nat.and_pow_two_sub_one_eq_mod x 4
  norm_num at h
  exact h

theorem and_240_eq (x : Nat) (h : x < 256) : x &&& 240 = x / 16 * 16 := by
  have hfin : ∀ y : Fin 256, (y : Nat) &&& 240 = (y : Nat) / 16 * 16 := by decide
  exact hfin ⟨x, h⟩

theorem encARGB4_word (p : Pixel) (hr : p.r < 256) (hg : p.g < 256) (hb : p.b < 256)
    (ha : p.a < 256) :
    ((p.a >>> 4) <<< 12) ||| ((p.b >>> 4) <<< 8) ||| ((p.g >>> 4) <<< 4) ||| (p.r >>> 4)
      = (p.a / 16) * 4096 + (p.b / 16) * 256 + (p.g / 16) * 16 + p.r / 16 := by
  simp only [Nat.shiftRight_eq_div_pow]
  norm_num
  have e1 : ((p.a / 16) <<< 12) ||| ((p.b / 16) <<< 8)
      = (p.a / 16) * 4096 + (p.b / 16) * 256 := by
    rw [lorShiftAdd _ _ 12 (by rw [Nat.shiftLeft_eq]; norm_num; omega)]
    rw [Nat.shiftLeft_eq, Nat.shiftLeft_eq]
  rw [e1]
  have e2 : ((p.a / 16) * 4096 + (p.b / 16) * 256) ||| ((p.g / 16) <<< 4)
      = (p.a / 16) * 4096 + (p.b / 16) * 256 + (p.g / 16) * 16 := by
    rw [lor_eq_add_of_lt _ _ 8 (by norm_num; omega)
      (by rw [Nat.shiftLeft_eq]; norm_num; omega)]
    rw [Nat.shiftLeft_eq]
  rw [e2]
  exact lor_eq_add_of_lt _ _ 4 (by norm_num; omega) (by norm_num; omega)

theorem encARGB4_decode_pair (p : Pixel) (hr : p.r < 256) (hg : p.g < 256) (hb : p.b < 256)
    (ha : p.a < 256) (tail : List Nat) :
    decodeARGB4Pixels (encARGB4Pixel p ++ tail)
      = (⟨p.r &&& 0xF0, p.g &&& 0xF0, p.b &&& 0xF0, p.a &&& 0xF0⟩ : Pixel) ::
        decodeARGB4Pixels tail := by
  have hword := encARGB4_word p hr hg hb ha
  have hlt : ((p.a >>> 4) <<< 12) ||| ((p.b >>> 4) <<< 8) ||| ((p.g >>> 4) <<< 4) ||| (p.r >>> 4)
      < 65536 := by
    rw [hword]; omega
  simp only [encARGB4Pixel, List.cons_append, List.nil_append, decodeARGB4Pixels]
  congr 1
  rw [u16ofLE_mod_bytes, Nat.mod_eq_of_lt hlt, hword]
  have hx : ∀ x : Nat, x < 256 →
      ((p.a / 16) * 4096 + (p.b / 16) * 256 + (p.g / 16) * 16 + p.r / 16) % 16 = p.r / 16 := by
    intro x _; omega
  congr 1
  · rw [and_15_eq_mod, Nat.shiftLeft_eq, and_240_eq _ hr]
    norm_num
    omega
  · rw [Nat.shiftRight_eq_div_pow, and_15_eq_mod, Nat.shiftLeft_eq, and_240_eq _ hg]
    norm_num
    omega
  · rw [Nat.shiftRight_eq_div_pow, and_15_eq_mod, Nat.shiftLeft_eq, and_240_eq _ hb]
    norm_num
    omega
  · rw [Nat.shiftRight_eq_div_pow, and_15_eq_mod, Nat.shiftLeft_eq, and_240_eq _ ha]
    norm_num
    omega

theorem decodeARGB4_flatMap (pix : List Pixel)
    (hpix : ∀ p ∈ pix, p.r < 256 ∧ p.g < 256 ∧ p.b < 256 ∧ p.a < 256) :
    decodeARGB4Pixels (pix.flatMap encARGB4Pixel)
      = pix.map (fun p => ⟨p.r &&& 0xF0, p.g &&& 0xF0, p.b &&& 0xF0, p.a &&& 0xF0⟩) := by
  induction pix with
  | nil => rfl
  | cons p rest ih =>
    obtain ⟨hr, hg, hb, ha⟩ := hpix p (List.mem_cons_self p rest)
    rw [List.flatMap_cons, encARGB4_decode_pair p hr hg hb ha, List.map_cons,
      ih (fun q hq => hpix q (List.mem_cons_of_mem p hq))]

/-- C8.  Encoding an image of positive dimensions as ARGB4444 and decoding
the resulting bytes reproduces each channel of every pixel in 4-bit
quantized form (the input value with its low 4 bits cleared), through the
16-bit layout that packs A in bits 12-15, B in 8-11, G in 4-7, R in 0-3. -/
theorem c8_argb4444_roundtrip (img : Image) (hw : 0 < img.w) (hh : 0 < img.h)
    (hlen : img.pix.length = img.w * img.h)
    (hpix : ∀ p ∈ img.pix, p.r < 256 ∧ p.g < 256 ∧ p.b < 256 ∧ p.a < 256) :
    (encodePixelFormat PaxType.ARGB4 img).bind
        (fun raw => decodePixelFormat PaxType.ARGB4 raw img.w img.h)
      = Except.ok (img.pix.map
          (fun p => ⟨p.r &&& 0xF0, p.g &&& 0xF0, p.b &&& 0xF0, p.a &&& 0xF0⟩)) := by
  unfold encodePixelFormat
  rw [if_neg (by omega)]
  simp only [Except.bind, decodePixelFormat]
  rw [decodeARGB4_flatMap img.pix hpix]
  rw [if_neg (by simp [hlen])]
  simp [hlen]

/-- C8 witness: the round trip evaluated on a 1 by 2 image. -/
theorem c8_argb4444_roundtrip_witness :
    (0 < (⟨1, 2, [⟨17, 34, 51, 68⟩, ⟨255, 0, 128, 15⟩]⟩ : Image).w ∧
        0 < (⟨1, 2, [⟨17, 34, 51, 68⟩, ⟨255, 0, 128, 15⟩]⟩ : Image).h ∧
        (⟨1, 2, [⟨17, 34, 51, 68⟩, ⟨255, 0, 128, 15⟩]⟩ : Image).pix.length = 1 * 2) ∧
      (encodePixelFormat PaxType.ARGB4 ⟨1, 2, [⟨17, 34, 51, 68⟩, ⟨255, 0, 128, 15⟩]⟩).bind
          (fun raw => decodePixelFormat PaxType.ARGB4 raw 1 2)
        = Except.ok ((⟨1, 2, [⟨17, 34, 51, 68⟩, ⟨255, 0, 128, 15⟩]⟩ : Image).pix.map
            (fun p => ⟨p.r &&& 0xF0, p.g &&& 0xF0, p.b &&& 0xF0, p.a &&& 0xF0⟩)) :=
  ⟨⟨by decide, by decide, by decide⟩,
    c8_argb4444_roundtrip ⟨1, 2, [⟨17, 34, 51, 68⟩, ⟨255, 0, 128, 15⟩]⟩ (by decide) (by decide)
      (by decide) (by decide)⟩

theorem mapGet_tagsOf_nil (entries : List (List Nat × List Nat)) (name : List Nat) :
    mapGet (tagsOf [] entries) name = lastPayload entries name := by
  rw [mapGet_tagsOf]
  cases h : lastPayload entries name <;> simp [mapGet]

/-- C9.  A tag section holding the same 4-byte name twice (or more) parses
without failing, and the tag map read back by the decode entry points
binds that name to the payload of its last occurrence: shown in general
for every serialized tag list, and on the concrete duplicated-CGVA stream
through both DecodePAA and DecodeMetadata. -/
theorem c9_duplicate_tags_last_wins (entries : List (List Nat × List Nat)) (rest : List Nat)
    (name : List Nat) (hnames : ∀ e ∈ entries, (e : List Nat × List Nat).1.length = 4)
    (hpays : ∀ e ∈ entries, (e : List Nat × List Nat).2.length < 4294967296)
    (h4 : 4 ≤ rest.length) (hsig : rest.take 4 ≠ ggatSig)
    (hdup : 2 ≤ entries.countP (fun e => decide (e.1 = name))) :
    readGGATTags (tagStream entries ++ rest) = Except.ok (tagsOf [] entries, rest.drop 4) ∧
      mapGet (tagsOf [] entries) name = lastPayload entries name ∧
      (DecodePAA cStub dupTagStream).map (fun p => mapGet p.Taggs cgvaName)
        = Except.ok (some [9, 9, 9, 9]) ∧
      (DecodeMetadata dupTagStream).map (fun m => mapGet m.Taggs cgvaName)
        = Except.ok (some [9, 9, 9, 9]) := by
  have hstream : dupTagStream = ptBytes PaxType.GRAYA ++ (tagStream dupEntries ++ dupRest) := rfl
  have htags := readGGATTags_serialized dupEntries dupRest (by decide) (by decide) (by decide)
    (by decide)
  have hpt : readPaxTypeE (ptBytes PaxType.GRAYA ++ (tagStream dupEntries ++ dupRest))
      = Except.ok PaxType.GRAYA := by rfl
  have hdrop : (ptBytes PaxType.GRAYA ++ (tagStream dupEntries ++ dupRest)).drop 2
      = tagStream dupEntries ++ dupRest := List.drop_left' rfl
  refine ⟨readGGATTags_serialized entries rest hnames hpays h4 hsig,
    mapGet_tagsOf_nil entries name, ?_, ?_⟩
  · rw [hstream]
    simp only [DecodePAA, hpt, hdrop, htags]
    rfl
  · rw [hstream]
    simp only [DecodeMetadata, hpt, hdrop, htags]
    rfl

/-- C9 witness: the duplicated-CGVA entry list serialized in dupTagStream,
with [9,9,9,9] as the retained payload. -/
theorem c9_duplicate_tags_last_wins_witness :
    ((∀ e ∈ dupEntries, (e : List Nat × List Nat).1.length = 4) ∧
        (∀ e ∈ dupEntries, (e : List Nat × List Nat).2.length < 4294967296) ∧
        4 ≤ dupRest.length ∧ dupRest.take 4 ≠ ggatSig ∧
        2 ≤ dupEntries.countP (fun e => decide (e.1 = cgvaName))) ∧
      (readGGATTags (tagStream dupEntries ++ dupRest)
          = Except.ok (tagsOf [] dupEntries, dupRest.drop 4) ∧
        mapGet (tagsOf [] dupEntries) cgvaName = lastPayload dupEntries cgvaName ∧
        (DecodePAA cStub dupTagStream).map (fun p => mapGet p.Taggs cgvaName)
          = Except.ok (some [9, 9, 9, 9]) ∧
        (DecodeMetadata dupTagStream).map (fun m => mapGet m.Taggs cgvaName)
          = Except.ok (some [9, 9, 9, 9])) :=
  ⟨⟨by decide, by decide, by decide, by decide, by decide⟩,
    c9_duplicate_tags_last_wins dupEntries dupRest cgvaName (by decide) (by decide) (by decide)
      (by decide) (by decide)⟩

theorem sffoCollectList_zero : ∀ (n : Nat) (sffo : List Nat), sffo.length ≤ n →
    (∀ b ∈ sffo, b = 0) → sffoCollectList sffo = [] := by
  intro n
  induction n with
  | zero =>
    intro sffo hlen _
    match sffo with
    | [] => rfl
    | b :: rest => simp at hlen
  | succ n ih =>
    intro sffo hlen hz
    match sffo with
    | [] => rfl
    | [a] => rfl
    | [a, b] => rfl
    | [a, b, c] => rfl
    | b0 :: b1 :: b2 :: b3 :: rest =>
      have h0 : b0 = 0 := hz b0 (by simp)
      have h1 : b1 = 0 := hz b1 (by simp)
      have h2 : b2 = 0 := hz b2 (by simp)
      have h3 : b3 = 0 := hz b3 (by simp)
      subst h0 h1 h2 h3
      show (if u32ofLE 0 0 0 0 = 0 then sffoCollectList rest else
        u32ofLE 0 0 0 0 :: sffoCollectList rest) = []
      rw [if_pos (show u32ofLE 0 0 0 0 = 0 from rfl)]
      refine ih rest (by simp at hlen; omega) (fun b hb => hz b (by simp [hb]))

theorem sffoOffsets_all_zero (tags : List (List Nat × List Nat)) (sffo : List Nat)
    (hsffo : mapGet tags sffoName = some sffo) (hz : ∀ b ∈ sffo, b = 0) :
    sffoOffsets tags = Except.error Err.MissingSFFO := by
  unfold sffoOffsets
  simp only [hsffo]
  rw [sffoCollectList_zero sffo.length sffo (Nat.le_refl _) hz]
  simp

/-- C10.  For every stream whose magic and tag section parse and whose SFFO
tag is present but holds only zero bytes, both DecodePAA and
DecodeMetadata fail with the MissingSFFO error kind instead of returning
a result with an empty mip list. -/
theorem c10_all_zero_sffo (s : List Nat) (pt : PaxType) (tags : List (List Nat × List Nat))
    (rem sffo : List Nat) (c : Codecs) (hpt : readPaxTypeE s = Except.ok pt)
    (htags : readGGATTags (s.drop 2) = Except.ok (tags, rem))
    (hsffo : mapGet tags sffoName = some sffo) (hzero : ∀ b ∈ sffo, b = 0) :
    DecodePAA c s = Except.error Err.MissingSFFO ∧
      DecodeMetadata s = Except.error Err.MissingSFFO := by
  have hoff := sffoOffsets_all_zero tags sffo hsffo hzero
  constructor
  · simp only [DecodePAA, hpt, htags, hoff]
  · simp only [DecodeMetadata, hpt, htags, hoff]

/-- C10 witness: a GRAYA stream whose SFFO payload is eight zero bytes. -/
theorem c10_all_zero_sffo_witness :
    (readPaxTypeE allZeroSffoStream = Except.ok PaxType.GRAYA ∧
        readGGATTags (allZeroSffoStream.drop 2)
          = Except.ok (tagsOf [] [(sffoName, List.replicate 8 0)], []) ∧
        mapGet (tagsOf [] [(sffoName, List.replicate 8 0)]) sffoName
          = some (List.replicate 8 0) ∧
        (∀ b ∈ List.replicate 8 (0 : Nat), b = 0)) ∧
      (DecodePAA cStub allZeroSffoStream = Except.error Err.MissingSFFO ∧
        DecodeMetadata allZeroSffoStream = Except.error Err.MissingSFFO) :=
  ⟨⟨rfl,
      readGGATTags_serialized [(sffoName, List.replicate 8 0)] [0, 0, 0, 0] (by decide)
        (by decide) (by decide) (by decide),
      by decide, by decide⟩,
    c10_all_zero_sffo allZeroSffoStream PaxType.GRAYA
      (tagsOf [] [(sffoName, List.replicate 8 0)]) [] (List.replicate 8 0) cStub rfl
      (readGGATTags_serialized [(sffoName, List.replicate 8 0)] [0, 0, 0, 0] (by decide)
        (by decide) (by decide) (by decide))
      (by decide) (by decide)⟩

end Paa
